import Mathlib

/-!
Verification development for the YouTube bronze/silver batch pipeline
(`src/extract.py`, `src/transformation.py`, `src/load.py`, `src/main.py`).

The embedding is shallow: pandas DataFrames become lists of rows, a row
being an ordered association list of column name to cell value; files in a
staging zone become a list of named entries whose content is `Option`
(`none` modelling a read that raises); every Python `try/except` becomes
explicit control flow on `Option`/`Except`-like values.  All definitions
are translated from the Python source; the one definition translated from
the spec's wording (`specPatternShape`) is marked as such.
-/

namespace YTP

/-- A cell is a string; a row is the ordered list of (column, value) pairs
of one pandas DataFrame row. -/
abbrev Row := List (String × String)

/-- A DataFrame is its list of rows (column order carried inside each row). -/
abbrev DataFrame := List Row

/-- A file in a staging-zone directory: its name and the table obtained by
reading it; `none` models a read (`pd.read_csv` / `pd.read_parquet`) that
raises. -/
structure FileEntry where
  name : String
  content : Option DataFrame
deriving DecidableEq, Repr

/-- Python dict assignment `d[k] = v`: replace in place if the key exists
(keeping its insertion position), else append.  Also models pandas column
assignment `df[c] = v` at row level. -/
def dictSet {α : Type} (d : List (String × α)) (k : String) (v : α) : List (String × α) :=
  if d.any (fun p => p.1 = k) then
    d.map (fun p => if p.1 = k then (k, v) else p)
  else d ++ [(k, v)]

/-- Column lookup inside a row (`row[c]`); `none` models a `KeyError`. -/
def getCol (r : Row) (k : String) : Option String :=
  (r.find? (fun p => p.1 = k)).map (·.2)

/-- Substring test: Python `re.search("2023-10-27", f)` with a metacharacter-free
pattern is a plain substring search anywhere in the string. -/
def charsHaveSub (p : List Char) : List Char → Bool
  | [] => List.isPrefixOf p []
  | c :: t => List.isPrefixOf p (c :: t) || charsHaveSub p t

/-- String-level substring containment. -/
def containsSub (s pat : String) : Bool :=
  charsHaveSub pat.toList s.toList

/-- Python `s.endswith(suffix)`. -/
def nameEndsWith (s suffix : String) : Bool :=
  List.isSuffixOf suffix.toList s.toList

/-- Python `s.startswith(pre)`. -/
def nameStartsWith (s pre : String) : Bool :=
  List.isPrefixOf pre.toList s.toList

/-- Python `s.split("_")`: cut at every underscore, keeping empty pieces. -/
def splitUnderscore : List Char → List (List Char)
  | [] => [[]]
  | c :: rest =>
    match splitUnderscore rest with
    | [] => [[c]]
    | p :: ps => if c = '_' then [] :: p :: ps else (c :: p) :: ps

/-! ### `convert_datetime` (transformation.py lines 26-38)

`datetime.strptime(s, "%Y-%m-%dT%H:%M:%SZ").strftime("%Y-%m-%d %H:%M:%S")`.

CPython's `_strptime` compiles the format to the anchored regex
`(\d\d\d\d)-(1[0-2]|0[1-9]|[1-9])-(3[01]|[12]\d|0[1-9]|[1-9])T`
`(2[0-3]|[0-1]\d|\d):([0-5]\d|\d):(6[0-1]|[0-5]\d|\d)Z`
compiled with IGNORECASE (so the literals `T`/`Z` also match lowercase), and
requires the whole string to be consumed.  For every 1-or-2-digit field the
2-digit alternatives are listed first; whenever a 2-digit alternative
matches, its second character is a digit, while the character the 1-digit
alternative would have to match next is a non-digit literal (or the end of
the input) - so backtracking into the 1-digit alternative can never succeed
once a 2-digit alternative matched, and the match is deterministic:
take two digits when a 2-digit alternative matches, else one.
`datetime.datetime` then validates `1 <= year`, `day <= days in month`
and `second <= 59` (the regex already forces the other bounds). -/

/-- Digit value of a character, `none` when not `0`-`9`. -/
def digitVal (c : Char) : Option Nat :=
  if c.isDigit then some (c.toNat - 48) else none

/-- Four mandatory digits for `%Y`. -/
def parseY4 : List Char → Option (Nat × List Char)
  | a :: b :: c :: d :: rest => do
    let va ← digitVal a
    let vb ← digitVal b
    let vc ← digitVal c
    let vd ← digitVal d
    pure (1000 * va + 100 * vb + 10 * vc + vd, rest)
  | _ => none

/-- Two-digit alternatives of `%m`: `1[0-2]|0[1-9]`. -/
def month2 (a b : Char) : Option Nat :=
  if a = '1' then (digitVal b).bind (fun v => if v ≤ 2 then some (10 + v) else none)
  else if a = '0' then (digitVal b).bind (fun v => if 1 ≤ v then some v else none)
  else none

/-- One-digit alternative of `%m`: `[1-9]`. -/
def month1 (a : Char) : Option Nat :=
  (digitVal a).bind (fun v => if 1 ≤ v then some v else none)

/-- Two-digit alternatives of `%d`: `3[01]|[12]\d|0[1-9]`. -/
def day2 (a b : Char) : Option Nat :=
  if a = '3' then (digitVal b).bind (fun v => if v ≤ 1 then some (30 + v) else none)
  else if a = '1' ∨ a = '2' then
    (digitVal a).bind (fun va => (digitVal b).map (fun vb => 10 * va + vb))
  else if a = '0' then (digitVal b).bind (fun v => if 1 ≤ v then some v else none)
  else none

/-- One-digit alternative of `%d`: `[1-9]`. -/
def day1 (a : Char) : Option Nat :=
  (digitVal a).bind (fun v => if 1 ≤ v then some v else none)

/-- Two-digit alternatives of `%H`: `2[0-3]|[0-1]\d`. -/
def hour2 (a b : Char) : Option Nat :=
  if a = '2' then (digitVal b).bind (fun v => if v ≤ 3 then some (20 + v) else none)
  else if a = '0' ∨ a = '1' then
    (digitVal a).bind (fun va => (digitVal b).map (fun vb => 10 * va + vb))
  else none

/-- One-digit alternative of `%H`: `\d`. -/
def hour1 (a : Char) : Option Nat := digitVal a

/-- Two-digit alternative of `%M`: `[0-5]\d`. -/
def minute2 (a b : Char) : Option Nat :=
  (digitVal a).bind (fun va => if va ≤ 5 then (digitVal b).map (fun vb => 10 * va + vb) else none)

/-- One-digit alternative of `%M`: `\d`. -/
def minute1 (a : Char) : Option Nat := digitVal a

/-- Two-digit alternatives of `%S`: `6[0-1]|[0-5]\d` (leap seconds admitted
by the regex, rejected later by the datetime constructor). -/
def second2 (a b : Char) : Option Nat :=
  if a = '6' then (digitVal b).bind (fun v => if v ≤ 1 then some (60 + v) else none)
  else (digitVal a).bind (fun va => if va ≤ 5 then (digitVal b).map (fun vb => 10 * va + vb) else none)

/-- One-digit alternative of `%S`: `\d`. -/
def second1 (a : Char) : Option Nat := digitVal a

/-- Match a 1-or-2-digit field: two digits when a 2-digit alternative
matches (see the determinism argument above), else one digit. -/
def pField (p2 : Char → Char → Option Nat) (p1 : Char → Option Nat) :
    List Char → Option (Nat × List Char)
  | a :: b :: rest =>
    match p2 a b with
    | some v => some (v, rest)
    | none => (p1 a).map (fun v => (v, b :: rest))
  | [a] => (p1 a).map (fun v => (v, ([] : List Char)))
  | [] => none

/-- Match one literal character, case-insensitively (the regex is compiled
with IGNORECASE). -/
def litChar (c : Char) : List Char → Option (List Char)
  | x :: rest => if x.toLower = c.toLower then some rest else none
  | [] => none

/-- The `_strptime` regex match for format `%Y-%m-%dT%H:%M:%SZ`, requiring
the whole input to be consumed ("unconverted data remains" otherwise). -/
def strptimeYmdHMSZ (s : String) : Option (Nat × Nat × Nat × Nat × Nat × Nat) := do
  let (y, r1) ← parseY4 s.toList
  let r2 ← litChar '-' r1
  let (mo, r3) ← pField month2 month1 r2
  let r4 ← litChar '-' r3
  let (d, r5) ← pField day2 day1 r4
  let r6 ← litChar 'T' r5
  let (h, r7) ← pField hour2 hour1 r6
  let r8 ← litChar ':' r7
  let (mi, r9) ← pField minute2 minute1 r8
  let r10 ← litChar ':' r9
  let (sec, r11) ← pField second2 second1 r10
  let r12 ← litChar 'Z' r11
  match r12 with
  | [] => some (y, mo, d, h, mi, sec)
  | _ => none

/-- Gregorian leap-year rule used by `datetime.date`. -/
def isLeapYear (y : Nat) : Bool :=
  y % 4 = 0 && (y % 100 ≠ 0 || y % 400 = 0)

/-- Days in a month, as validated by the `datetime` constructor. -/
def daysInMonth (y m : Nat) : Nat :=
  if m = 2 then (if isLeapYear y then 29 else 28)
  else if m = 4 ∨ m = 6 ∨ m = 9 ∨ m = 11 then 30
  else 31

/-- Decimal digit character. -/
def dchar (k : Nat) : Char := Char.ofNat (48 + k)

/-- Zero-padded two-digit rendering (`%02d`, exact for `n ≤ 99`). -/
def twoDigitChars (n : Nat) : List Char := [dchar (n / 10), dchar (n % 10)]

/-- Four-digit year rendering; `%Y` prints the year's decimal digits, which
for the years `1000-9999` admitted by our theorems is exactly this list
(below 1000 CPython's `%Y` padding is platform dependent). -/
def fourDigitChars (n : Nat) : List Char :=
  [dchar (n / 1000), dchar (n / 100 % 10), dchar (n / 10 % 10), dchar (n % 10)]

/-- The `strftime("%Y-%m-%d %H:%M:%S")` rendering. -/
def strftimeSpace (y mo d h mi s : Nat) : String :=
  String.mk (fourDigitChars y ++ '-' :: twoDigitChars mo ++ '-' :: twoDigitChars d
    ++ ' ' :: twoDigitChars h ++ ':' :: twoDigitChars mi ++ ':' :: twoDigitChars s)

/-- The origin wire rendering `YYYY-MM-DDTHH:MM:SSZ` of a datetime value. -/
def wireT (y mo d h mi s : Nat) : String :=
  String.mk (fourDigitChars y ++ '-' :: twoDigitChars mo ++ '-' :: twoDigitChars d
    ++ 'T' :: twoDigitChars h ++ ':' :: twoDigitChars mi ++ ':' :: twoDigitChars s ++ ['Z'])

/-- transformation.py lines 26-38: `convert_datetime`.  `none` models the
`ValueError` ("FormatError") raised either by the regex match failing or by
the `datetime` constructor rejecting the field values. -/
def convert_datetime (s : String) : Option String :=
  match strptimeYmdHMSZ s with
  | none => none
  | some (y, mo, d, h, mi, sec) =>
    if 1 ≤ y ∧ 1 ≤ d ∧ d ≤ daysInMonth y mo ∧ sec ≤ 59 then
      some (strftimeSpace y mo d h mi sec)
    else none

/-- Modelled from the spec's words: a string "of the form
`YYYY-MM-DDTHH:MM:SSZ`" - four digits, dash, two digits, dash, two digits,
literal `T`, then `HH:MM:SS` in two-digit groups and a literal `Z`.  This
definition follows the spec sentence, to be compared with the behaviour of
`convert_datetime` as translated from the source. -/
def specPatternShape (s : String) : Bool :=
  match s.toList with
  | [y1, y2, y3, y4, a1, m1, m2, a2, d1, d2, t, h1, h2, b1, n1, n2, b2, s1, s2, z] =>
    y1.isDigit && y2.isDigit && y3.isDigit && y4.isDigit && a1 = '-' &&
    m1.isDigit && m2.isDigit && a2 = '-' && d1.isDigit && d2.isDigit &&
    t = 'T' && h1.isDigit && h2.isDigit && b1 = ':' && n1.isDigit && n2.isDigit &&
    b2 = ':' && s1.isDigit && s2.isDigit && z = 'Z'
  | _ => false

/-! ### Transformation Engine (transformation.py) -/

/-- transformation.py lines 19-23: `add_quality_columns` sets the two
provenance columns `_source` and `_datetime` on every row; `now` is the
wall-clock string `datetime.now().strftime("%Y-%m-%d %H:%M:%S")` of the
transformation run. -/
def add_quality_columns (now : String) (df : DataFrame) : DataFrame :=
  df.map (fun r => dictSet (dictSet r "_source" "YouTube") "_datetime" now)

/-- One row of `df["publishedAt"].apply(convert_datetime)`: look the column
up (a missing column raises `KeyError`) and convert it (a bad value raises
`ValueError`); `none` models either exception. -/
def convertRow (r : Row) : Option Row :=
  (getCol r "publishedAt").bind (fun v =>
    (convert_datetime v).map (fun v2 => dictSet r "publishedAt" v2))

/-- The whole-column `apply`: the first failing row aborts the conversion
of the file. -/
def processRows : DataFrame → Option DataFrame
  | [] => some []
  | r :: rest =>
    match convertRow r with
    | none => none
    | some r2 => (processRows rest).map (fun l => r2 :: l)

/-- The per-file body of `process_files` (transformation.py lines 78-98):
read the CSV, convert `publishedAt`, add the quality columns; `none` when
any of these raises, in which case the file is skipped. -/
def processOne (now : String) (f : FileEntry) : Option (String × DataFrame) :=
  f.content.bind (fun df =>
    (processRows df).map (fun df2 => (f.name, add_quality_columns now df2)))

/-- The `for` loop of `process_files`, threading the result dict. -/
def processLoop (now : String) : List FileEntry → List (String × DataFrame) →
    List (String × DataFrame)
  | [], dict => dict
  | f :: rest, dict =>
    match processOne now f with
    | none => processLoop now rest dict
    | some kv => processLoop now rest (dictSet dict kv.1 kv.2)

/-- transformation.py lines 64-100: `process_files` selects the bronze
files whose *name contains* the literal `"2023-10-27"` (`re.search`, any
extension) and processes each, skipping the ones that raise. -/
def process_files (bronze : List FileEntry) (now : String) : List (String × DataFrame) :=
  processLoop now (bronze.filter (fun f => containsSub f.name "2023-10-27")) []

/-- The `for` loop of `get_processed_files` (transformation.py lines
47-60): for each listed `.parquet` file, try to read it; on success record
it in the dict and delete it from the directory (`os.remove` *after* the
read); on failure log and leave the directory untouched. -/
def reclaimLoop : List FileEntry → List (String × DataFrame) → List FileEntry →
    List (String × DataFrame) × List FileEntry
  | [], dict, dir => (dict, dir)
  | f :: rest, dict, dir =>
    match f.content with
    | some df => reclaimLoop rest (dictSet dict f.name df) (dir.filter (fun g => g.name ≠ f.name))
    | none => reclaimLoop rest dict dir

/-- transformation.py lines 41-61: `get_processed_files` lists the silver
files whose name *ends with* `".parquet"` and reclaims each; returns the
dict of reclaimed tables together with the silver directory state after
the deletions. -/
def get_processed_files (silver : List FileEntry) :
    List (String × DataFrame) × List FileEntry :=
  reclaimLoop (silver.filter (fun f => nameEndsWith f.name ".parquet")) [] silver

/-- Classification used at transformation.py lines 113-123: a file name is
a videos table iff it starts with `"videos_"`, anything else is channel. -/
def isVideosName (s : String) : Bool := nameStartsWith s "videos_"

/-- The two routing loops of `consolidated_all_files` (lines 113-123): both
dicts (reclaimed first, then freshly processed) are routed into the
`channel`/`videos` buckets, each bucket being a dict keyed by file name. -/
def bucketFold (keep : String → Bool) (entries : List (String × DataFrame)) :
    List (String × DataFrame) :=
  entries.foldl (fun d p => if keep p.1 then dictSet d p.1 p.2 else d) []

/-- The channel bucket of a run. -/
def chanBucket (bronze silver : List FileEntry) (now : String) : List (String × DataFrame) :=
  bucketFold (fun k => !isVideosName k) ((get_processed_files silver).1 ++ process_files bronze now)

/-- The videos bucket of a run. -/
def vidBucket (bronze silver : List FileEntry) (now : String) : List (String × DataFrame) :=
  bucketFold (fun k => isVideosName k) ((get_processed_files silver).1 ++ process_files bronze now)

/-- Row-wise concatenation `pd.concat(bucket.values(), ignore_index=True)`. -/
def concatTables (d : List (String × DataFrame)) : DataFrame :=
  (d.map Prod.snd).flatten

/-- Output naming (lines 140-150): strip the timestamp suffix (everything
after the last underscore) from a representative input file name and append
the consolidation timestamp and the parquet extension. -/
def outName (fname now : String) : String :=
  String.mk (List.intercalate ['_'] (splitUnderscore fname.toList).dropLast)
    ++ "_" ++ now ++ ".parquet"

/-- Result of one `consolidated_all_files` run: the silver outputs written
for each kind (`none` when that write never happened) and the final state
of the silver directory. -/
structure TransformResult where
  channelOut : Option (String × DataFrame)
  videosOut : Option (String × DataFrame)
  silverAfter : List FileEntry
deriving DecidableEq, Repr

/-- File entry created by a parquet write. -/
def mkEntry (p : String × DataFrame) : FileEntry := ⟨p.1, some p.2⟩

/-- transformation.py lines 103-158: `consolidated_all_files`.

First `try` block (lines 112-133): both buckets are filled, then
`pd.concat` runs on the channel bucket and afterwards on the videos
bucket; concatenating an *empty* bucket raises `ValueError`, which the
`except` swallows, so when the channel bucket is empty *neither*
consolidated frame is defined, and when only the videos bucket is empty
the channel frame alone is defined.

Second `try` block (lines 137-158): iterate `channel` then `videos`; each
branch takes `next(iter(bucket.keys()))` - a `StopIteration` on an empty
bucket (or a `NameError` on an undefined frame) aborts the whole loop, so
the videos write is only reached when the channel branch fully succeeded. -/
def consolidated_all_files (bronze silver : List FileEntry) (now : String) : TransformResult :=
  let silver1 := (get_processed_files silver).2
  let chanD := chanBucket bronze silver now
  let vidD := vidBucket bronze silver now
  let cChan : Option DataFrame := if chanD.isEmpty then none else some (concatTables chanD)
  let cVid : Option DataFrame :=
    if chanD.isEmpty then none
    else if vidD.isEmpty then none else some (concatTables vidD)
  match chanD, cChan with
  | [], _ => ⟨none, none, silver1⟩
  | _ :: _, none => ⟨none, none, silver1⟩
  | (fname, _) :: _, some cdf =>
    let w1 := (outName fname now, cdf)
    match vidD, cVid with
    | [], _ => ⟨some w1, none, silver1 ++ [mkEntry w1]⟩
    | _ :: _, none => ⟨some w1, none, silver1 ++ [mkEntry w1]⟩
    | (vname, _) :: _, some vdf =>
      let w2 := (outName vname now, vdf)
      ⟨some w1, some w2, silver1 ++ [mkEntry w1, mkEntry w2]⟩

/-- transformation.py lines 161-173: `transformation_full` ensures the two
zone directories exist (a no-op on the directory contents) and runs the
consolidation. -/
def transformation_full (bronze silver : List FileEntry) (now : String) : TransformResult :=
  consolidated_all_files bronze silver now

/-! ### Extraction Engine (extract.py) -/

/-- Statistics returned by the per-video `videos().list(part="statistics")`
call; each field is absent when the API omits it (`statistics.get(key, 0)`
then defaults to `0`). -/
structure VideoStats where
  viewCount : Option String
  likeCount : Option String
  dislikeCount : Option String
  commentCount : Option String
deriving DecidableEq, Repr

/-- One item of a `search().list` page, together with the outcome of its
statistics lookup: `statsLookup = none` models the `videos().list` call (or
the item field accesses) raising for that video. -/
structure VideoItem where
  videoId : String
  channelId : String
  title : String
  description : String
  publishedAt : String
  statsLookup : Option VideoStats
deriving DecidableEq, Repr

/-- The record accumulated for one video (extract.py lines 195-205). -/
structure VideoRec where
  id : String
  channel_id : String
  title : String
  description : String
  publishedAt : String
  view_count : String
  like_count : String
  dislike_count : String
  comment_count : String
deriving DecidableEq, Repr

/-- Build the video record, defaulting each missing statistic to 0. -/
def toVideoRec (it : VideoItem) (st : VideoStats) : VideoRec :=
  { id := it.videoId
    channel_id := it.channelId
    title := it.title
    description := it.description
    publishedAt := it.publishedAt
    view_count := st.viewCount.getD "0"
    like_count := st.likeCount.getD "0"
    dislike_count := st.dislikeCount.getD "0"
    comment_count := st.commentCount.getD "0" }

/-- One page of the video listing as returned by a successful
`search().list(...).execute()`. -/
structure PageResponse where
  items : List VideoItem
  nextPageToken : Option String
deriving DecidableEq, Repr

/-- Outcome of one listing call: either the `execute()` itself raises, or a
page response is obtained. -/
inductive PageFetch where
  | raise
  | ok (resp : PageResponse)
deriving DecidableEq, Repr

/-- Python exceptions that escape the modelled functions. -/
inductive PyErr where
  | unboundLocal
deriving DecidableEq, Repr

deriving instance DecidableEq for Except

/-- The per-item loop of `extract_all_videos_info` (lines 178-207): the
first statistics failure raises out of the loop. -/
def collectVideos : List VideoItem → Option (List VideoRec)
  | [] => some []
  | it :: rest =>
    match it.statsLookup with
    | none => none
    | some st => (collectVideos rest).map (fun l => toVideoRec it st :: l)

/-- extract.py lines 130-216: `extract_all_videos_info`.

When `execute()` raises, the `except` clause sets `video_list = []` and
logs - but `next_page_token` was never assigned, so the `return` statement
itself raises `UnboundLocalError`.  When a later statement of the `try`
block raises (per-video statistics, item field access), `next_page_token`
is already bound and the function returns an empty frame with the token. -/
def extract_all_videos_info (f : PageFetch) : Except PyErr (List VideoRec × Option String) :=
  match f with
  | .raise => .error .unboundLocal
  | .ok resp =>
    match collectVideos resp.items with
    | some recs => .ok (recs, resp.nextPageToken)
    | none => .ok ([], resp.nextPageToken)

/-- The pagination loop of `extract_full` (lines 240-254):
`for page_number in range(1, 50)` gives at most 49 iterations; each
iteration appends the page's records and breaks when the returned token is
absent.  `fetch i` is the response of the `(i+1)`-th listing call. -/
def extractVideosLoop (fetch : Nat → PageFetch) :
    Nat → Nat → List VideoRec → Except PyErr (List VideoRec)
  | 0, _, acc => .ok acc
  | fuel + 1, i, acc =>
    match extract_all_videos_info (fetch i) with
    | .error e => .error e
    | .ok (recs, tok) =>
      match tok with
      | none => .ok (acc ++ recs)
      | some _ => extractVideosLoop fetch fuel (i + 1) (acc ++ recs)

/-- The accumulated video collection of one `extract_full` run. -/
def extract_full_videos (fetch : Nat → PageFetch) : Except PyErr (List VideoRec) :=
  extractVideosLoop fetch 49 0 []

/-- Channel attributes read from the directory lookup
(extract.py lines 85-105). -/
structure ChannelInfo where
  id : String
  title : String
  description : String
  custom_url : String
  publishedAt : String
  country : String
  view_count : String
  subscriber_count : String
  video_count : String
deriving DecidableEq, Repr

/-- extract.py lines 51-127: `extract_all_channel_info_by_usename`.

`lookup = none` models a channel lookup with zero matches (or any failure
reading the first item's fields): the `except` catches and logs it, but
`channel_info` is then unbound, so evaluating `channel_info["id"]` for the
follow-up `search().list` call raises `UnboundLocalError`.  `searchTotal`
is the `totalResults` reported by that follow-up call; when `pageInfo` is
missing, `total_pages` is unbound at the `return` and the function raises
as well. -/
def extract_all_channel_info_by_usename (lookup : Option ChannelInfo)
    (searchTotal : Option Nat) (maxResultsPerPage : Nat) :
    Except PyErr (ChannelInfo × Nat) :=
  match lookup with
  | none => .error .unboundLocal
  | some info =>
    match searchTotal with
    | none => .error .unboundLocal
    | some totalResults =>
      let tp := totalResults / maxResultsPerPage
      let total_pages := if totalResults % maxResultsPerPage > 0 then tp + 1 else tp
      .ok (info, total_pages)

/-- The one-row channel DataFrame written to bronze (lines 95-105, 127). -/
def channelDF (info : ChannelInfo) : DataFrame :=
  [[("id", info.id), ("title", info.title), ("description", info.description),
    ("custom_url", info.custom_url), ("publishedAt", info.publishedAt),
    ("country", info.country), ("view_count", info.view_count),
    ("subscriber_count", info.subscriber_count), ("video_count", info.video_count)]]

/-- One row of the videos DataFrame (lines 195-205). -/
def videoRow (r : VideoRec) : Row :=
  [("id", r.id), ("channel_id", r.channel_id), ("title", r.title),
   ("description", r.description), ("publishedAt", r.publishedAt),
   ("view_count", r.view_count), ("like_count", r.like_count),
   ("dislike_count", r.dislike_count), ("comment_count", r.comment_count)]

/-- The videos DataFrame accumulated by the pagination loop. -/
def videosDF (recs : List VideoRec) : DataFrame := recs.map videoRow

/-- extract.py lines 219-256: `extract_full`.  Returns the bronze files
written (in write order) and the exception escaping the stage, if any: the
channel CSV is saved *before* the pagination loop, so a loop failure still
leaves the channel file on disk; a channel-lookup failure writes nothing. -/
def extract_full (lookup : Option ChannelInfo) (searchTotal : Option Nat)
    (fetch : Nat → PageFetch) (nowE : String) :
    List (String × DataFrame) × Option PyErr :=
  match extract_all_channel_info_by_usename lookup searchTotal 50 with
  | .error e => ([], some e)
  | .ok (info, _totalPages) =>
    let f1 := ("channel_einerd_" ++ nowE ++ ".csv", channelDF info)
    match extract_full_videos fetch with
    | .error e => ([f1], some e)
    | .ok recs => ([f1, ("videos_einerd_" ++ nowE ++ ".csv", videosDF recs)], none)

/-! ### Pipeline Coordinator (main.py) -/

/-- Observable outcome of one `main()` invocation. -/
structure PipelineRun where
  bronzeAfter : List FileEntry
  extractErr : Option PyErr
  transform : TransformResult
deriving DecidableEq, Repr

/-- main.py lines 40-54: run extraction (its exception caught and logged),
then *always* run transformation on whatever bronze data exists.  `nowE` is
the extraction timestamp, `now2` the transformation timestamp. -/
def main_pipeline (lookup : Option ChannelInfo) (searchTotal : Option Nat)
    (fetch : Nat → PageFetch) (nowE now2 : String)
    (bronze0 silver0 : List FileEntry) : PipelineRun :=
  let e := extract_full lookup searchTotal fetch nowE
  let bronze1 := bronze0 ++ e.1.map mkEntry
  { bronzeAfter := bronze1
    extractErr := e.2
    transform := transformation_full bronze1 silver0 now2 }

/-! ### Generic helper lemmas -/

/-- Inserting a fresh key into a dict appends it. -/
theorem dictSet_of_not_mem {α : Type} {d : List (String × α)} {k : String} {v : α}
    (h : k ∉ d.map Prod.fst) : dictSet d k v = d ++ [(k, v)] := by
  unfold dictSet
  rw [if_neg]
  simp only [List.any_eq_true, not_exists, not_and]
  intro p hp hpk
  exact h (of_decide_eq_true hpk ▸ List.mem_map_of_mem Prod.fst hp)

/-- Injectivity on members extracted from a `Nodup` map. -/
theorem nodup_map_inj {α β : Type} {nm : α → β} {l : List α}
    (h : (l.map nm).Nodup) {a b : α} (ha : a ∈ l) (hb : b ∈ l)
    (hab : nm a = nm b) : a = b := by
  induction l with
  | nil => cases ha
  | cons x xs ih =>
    simp only [List.map_cons, List.nodup_cons] at h
    rcases List.mem_cons.1 ha with rfl | ha' <;>
      rcases List.mem_cons.1 hb with rfl | hb'
    · rfl
    · exact absurd (hab ▸ List.mem_map_of_mem nm hb') h.1
    · exact absurd (hab ▸ List.mem_map_of_mem nm ha') h.1
    · exact ih h.2 ha' hb'

/-- Keys produced by a key-preserving `filterMap` form a sublist of the
source keys. -/
theorem filterMap_keys_sublist {α β : Type} (F : α → Option (String × β)) (nm : α → String)
    (hkey : ∀ a kv, F a = some kv → kv.1 = nm a) (l : List α) :
    ((l.filterMap F).map Prod.fst).Sublist (l.map nm) := by
  induction l with
  | nil => simp
  | cons x xs ih =>
    cases hFx : F x with
    | none => simp only [List.filterMap_cons, hFx, List.map_cons]
              exact ih.cons (nm x)
    | some kv =>
      simp only [List.filterMap_cons, hFx, List.map_cons, hkey x kv hFx]
      exact ih.cons₂ (nm x)

/-! ### Characterizations of the transformation loops -/

/-- The key recorded by `processOne` is the file's name. -/
theorem processOne_key {now : String} {f : FileEntry} {kv : String × DataFrame}
    (h : processOne now f = some kv) : kv.1 = f.name := by
  unfold processOne at h
  cases hc : f.content with
  | none => rw [hc] at h; cases h
  | some df =>
    rw [hc] at h
    cases hp : processRows df with
    | none => simp [hp] at h
    | some df2 =>
      simp only [hp, Option.some_bind, Option.map_some'] at h
      rw [← Option.some.inj h]

/-- Unfolding the processing loop over fresh names. -/
theorem processLoop_eq (now : String) (L : List FileEntry)
    (dict : List (String × DataFrame))
    (hnd : (L.map FileEntry.name).Nodup)
    (hdisj : ∀ f ∈ L, f.name ∉ dict.map Prod.fst) :
    processLoop now L dict = dict ++ L.filterMap (processOne now) := by
  induction L generalizing dict with
  | nil => simp [processLoop]
  | cons f rest ih =>
    simp only [List.map_cons, List.nodup_cons] at hnd
    cases hFx : processOne now f with
    | none =>
      simp only [processLoop, hFx, List.filterMap_cons]
      exact ih dict hnd.2 (fun g hg => hdisj g (List.mem_cons_of_mem f hg))
    | some kv =>
      simp only [processLoop, hFx, List.filterMap_cons]
      have hk : kv.1 = f.name := processOne_key hFx
      have hnot : kv.1 ∉ dict.map Prod.fst := hk ▸ hdisj f (List.mem_cons_self f rest)
      have hd : ∀ g ∈ rest, g.name ∉ (dict ++ [kv]).map Prod.fst := by
        intro g hg
        simp only [List.map_append, List.mem_append, List.map_cons, List.map_nil,
          List.mem_singleton]
        rintro (hmem | hmem)
        · exact hdisj g (List.mem_cons_of_mem f hg) hmem
        · exact hnd.1 (hk ▸ hmem ▸ List.mem_map_of_mem FileEntry.name hg)
      rw [dictSet_of_not_mem hnot, ih (dict ++ [kv]) hnd.2 hd, List.append_assoc]
      simp

/-- Closed form of `process_files`: the processed dict is exactly the list
of files selected by the date-substring filter that parse and convert
successfully, in listing order. -/
theorem process_files_eq (bronze : List FileEntry) (now : String)
    (hnd : (bronze.map FileEntry.name).Nodup) :
    process_files bronze now =
      (bronze.filter (fun f => containsSub f.name "2023-10-27")).filterMap (processOne now) := by
  unfold process_files
  have hsub : ((bronze.filter (fun f => containsSub f.name "2023-10-27")).map FileEntry.name).Sublist
      (bronze.map FileEntry.name) := (List.filter_sublist bronze).map FileEntry.name
  rw [processLoop_eq now _ [] (hnd.sublist hsub) (by simp)]
  simp

/-- The reclaimed dict does not depend on the directory being mutated. -/
theorem reclaimLoop_fst (L : List FileEntry) (dict : List (String × DataFrame))
    (dir dir' : List FileEntry) :
    (reclaimLoop L dict dir).1 = (reclaimLoop L dict dir').1 := by
  induction L generalizing dict dir dir' with
  | nil => rfl
  | cons f rest ih =>
    cases hc : f.content with
    | none => simpa [reclaimLoop, hc] using ih dict dir dir'
    | some df => simpa [reclaimLoop, hc] using ih (dictSet dict f.name df) _ _

/-- Closed form of the reclaimed dict. -/
theorem reclaimLoop_fst_eq (L : List FileEntry) (dict : List (String × DataFrame))
    (dir : List FileEntry)
    (hnd : (L.map FileEntry.name).Nodup)
    (hdisj : ∀ f ∈ L, f.name ∉ dict.map Prod.fst) :
    (reclaimLoop L dict dir).1 =
      dict ++ L.filterMap (fun f => f.content.map (fun df => (f.name, df))) := by
  induction L generalizing dict dir with
  | nil => simp [reclaimLoop]
  | cons f rest ih =>
    simp only [List.map_cons, List.nodup_cons] at hnd
    cases hc : f.content with
    | none =>
      simp only [reclaimLoop, hc, List.filterMap_cons, Option.map_none']
      exact ih dict dir hnd.2 (fun g hg => hdisj g (List.mem_cons_of_mem f hg))
    | some df =>
      simp only [reclaimLoop, hc, List.filterMap_cons, Option.map_some']
      have hnot : f.name ∉ dict.map Prod.fst := hdisj f (List.mem_cons_self f rest)
      have hd : ∀ g ∈ rest, g.name ∉ (dict ++ [(f.name, df)]).map Prod.fst := by
        intro g hg
        simp only [List.map_append, List.mem_append, List.map_cons, List.map_nil,
          List.mem_singleton]
        rintro (hmem | hmem)
        · exact hdisj g (List.mem_cons_of_mem f hg) hmem
        · exact hnd.1 (hmem ▸ List.mem_map_of_mem FileEntry.name hg)
      rw [dictSet_of_not_mem hnot, ih (dict ++ [(f.name, df)]) _ hnd.2 hd, List.append_assoc]
      simp

/-- Predicate: `g` is not deleted by processing the reclaim list `L`. -/
def notRemoved (L : List FileEntry) (g : FileEntry) : Bool :=
  L.all (fun f => !(f.content.isSome && f.name == g.name))

/-- Closed form of the directory state left by the reclaim loop. -/
theorem reclaimLoop_snd_eq (L : List FileEntry) (dict : List (String × DataFrame))
    (dir : List FileEntry) :
    (reclaimLoop L dict dir).2 = dir.filter (notRemoved L) := by
  induction L generalizing dict dir with
  | nil =>
    have hpred : notRemoved [] = fun _ => true := by
      funext g
      rfl
    simp [reclaimLoop, hpred]
  | cons f rest ih =>
    cases hc : f.content with
    | none =>
      simp only [reclaimLoop, hc]
      rw [ih dict dir]
      apply List.filter_congr
      intro g _
      simp [notRemoved, hc]
    | some df =>
      simp only [reclaimLoop, hc]
      rw [ih _ _, List.filter_filter]
      apply List.filter_congr
      intro g _
      by_cases hgf : g.name = f.name
      · simp [notRemoved, hc, hgf]
      · have hfg : ¬ f.name = g.name := fun h => hgf h.symm
        simp [notRemoved, hc, hgf, hfg]

/-- Generalized-accumulator form of the bucket routing fold. -/
theorem bucketFold_go (keep : String → Bool) (entries : List (String × DataFrame))
    (acc : List (String × DataFrame))
    (hnd : (entries.map Prod.fst).Nodup)
    (hdisj : ∀ p ∈ entries, p.1 ∉ acc.map Prod.fst) :
    entries.foldl (fun d p => if keep p.1 then dictSet d p.1 p.2 else d) acc =
      acc ++ entries.filter (fun p => keep p.1) := by
  induction entries generalizing acc with
  | nil => simp
  | cons p rest ih =>
    simp only [List.map_cons, List.nodup_cons] at hnd
    simp only [List.foldl_cons]
    cases hk : keep p.1 with
    | false =>
      rw [List.filter_cons_of_neg (by simp [hk])]
      exact ih acc hnd.2 (fun q hq => hdisj q (List.mem_cons_of_mem p hq))
    | true =>
      have hnot : p.1 ∉ acc.map Prod.fst := hdisj p (List.mem_cons_self p rest)
      have hd : ∀ q ∈ rest, q.1 ∉ (acc ++ [(p.1, p.2)]).map Prod.fst := by
        intro q hq
        simp only [List.map_append, List.mem_append, List.map_cons, List.map_nil,
          List.mem_singleton]
        rintro (hmem | hmem)
        · exact hdisj q (List.mem_cons_of_mem p hq) hmem
        · exact hnd.1 (hmem ▸ List.mem_map_of_mem Prod.fst hq)
      rw [show List.filter (fun q => keep q.1) (p :: rest) =
            p :: List.filter (fun q => keep q.1) rest from List.filter_cons_of_pos hk,
        dictSet_of_not_mem hnot, if_pos rfl, ih (acc ++ [(p.1, p.2)]) hnd.2 hd,
        List.append_assoc]
      simp

/-- Routing with nodup keys is a plain filter. -/
theorem bucketFold_eq (keep : String → Bool) (entries : List (String × DataFrame))
    (hnd : (entries.map Prod.fst).Nodup) :
    bucketFold keep entries = entries.filter (fun p => keep p.1) := by
  unfold bucketFold
  rw [bucketFold_go keep entries [] hnd (by simp)]
  simp

/-- A table recorded in a bucket appears contiguously in the concatenation
of that bucket. -/
theorem concatTables_decomp {d : List (String × DataFrame)} {k : String} {df : DataFrame}
    (h : (k, df) ∈ d) : ∃ L R, concatTables d = L ++ (df ++ R) := by
  induction d with
  | nil => cases h
  | cons p rest ih =>
    rcases List.mem_cons.1 h with rfl | h'
    · exact ⟨[], concatTables rest, by simp [concatTables]⟩
    · rcases ih h' with ⟨L, R, hLR⟩
      refine ⟨p.2 ++ L, R, ?_⟩
      simp only [concatTables, List.map_cons, List.flatten_cons] at hLR ⊢
      rw [hLR, List.append_assoc]

/-! ### Claim C8 -/

/-- Helper: under distinct file names the reclaim survivors are exactly
the files that are not both parquet-named and readable. -/
theorem get_processed_files_snd (silver : List FileEntry)
    (hnd : (silver.map FileEntry.name).Nodup) :
    (get_processed_files silver).2 =
      silver.filter (fun f => !(nameEndsWith f.name ".parquet" && f.content.isSome)) := by
  unfold get_processed_files
  rw [reclaimLoop_snd_eq]
  apply List.filter_congr
  intro g hg
  show notRemoved (silver.filter (fun f => nameEndsWith f.name ".parquet")) g =
    !(nameEndsWith g.name ".parquet" && g.content.isSome)
  cases hb : (nameEndsWith g.name ".parquet" && g.content.isSome) with
  | true =>
    rw [Bool.and_eq_true] at hb
    have hgL : g ∈ silver.filter (fun f => nameEndsWith f.name ".parquet") :=
      List.mem_filter.2 ⟨hg, hb.1⟩
    simp only [Bool.not_true]
    apply Bool.eq_false_iff.2
    intro hall
    have h2 := List.all_eq_true.1 hall g hgL
    simp [hb.2] at h2
  | false =>
    simp only [Bool.not_false]
    apply List.all_eq_true.2
    intro f hf
    by_contra hp
    simp only [Bool.not_eq_true, Bool.not_eq_false', Bool.and_eq_true, beq_iff_eq] at hp
    have hfs : f ∈ silver := (List.mem_filter.1 hf).1
    have hfe : nameEndsWith f.name ".parquet" = true := (List.mem_filter.1 hf).2
    have hfg : f = g := nodup_map_inj hnd hfs hg hp.2
    rw [← hfg] at hb
    rw [hfe, hp.1] at hb
    cases hb

/-- Helper: the reclaimed dict is the readable parquet-named files in
listing order. -/
theorem get_processed_files_fst (silver : List FileEntry)
    (hnd : (silver.map FileEntry.name).Nodup) :
    (get_processed_files silver).1 =
      (silver.filter (fun f => nameEndsWith f.name ".parquet")).filterMap
        (fun f => f.content.map (fun df => (f.name, df))) := by
  unfold get_processed_files
  have hsub : ((silver.filter (fun f => nameEndsWith f.name ".parquet")).map FileEntry.name).Sublist
      (silver.map FileEntry.name) := (List.filter_sublist silver).map FileEntry.name
  rw [reclaimLoop_fst_eq _ [] silver (hnd.sublist hsub) (by simp)]
  simp

/-- C8: during silver-zone reclaim a file is deleted only after a
successful read; a file whose read raises stays on disk and contributes
nothing to the reclaimed collection, and a deleted file was necessarily
read successfully. -/
theorem C8_reclaim_state_on_error (silver : List FileEntry)
    (hnd : (silver.map FileEntry.name).Nodup) :
    (∀ f ∈ silver, f.content = none →
      f ∈ (get_processed_files silver).2 ∧
      f.name ∉ (get_processed_files silver).1.map Prod.fst)
    ∧ (∀ f ∈ silver, f ∉ (get_processed_files silver).2 →
        nameEndsWith f.name ".parquet" = true ∧ f.content.isSome = true) := by
  constructor
  · intro f hf hnone
    constructor
    · rw [get_processed_files_snd silver hnd]
      exact List.mem_filter.2 ⟨hf, by simp [hnone]⟩
    · rw [get_processed_files_fst silver hnd]
      intro hmem
      rcases List.mem_map.1 hmem with ⟨p, hp, hpname⟩
      rcases List.mem_filterMap.1 hp with ⟨g, hgL, hgp⟩
      cases hgc : g.content with
      | none => rw [hgc] at hgp; cases hgp
      | some df =>
        rw [hgc] at hgp
        have hgname : g.name = f.name := by
          rw [← hpname, ← Option.some.inj hgp]
        have hgs : g ∈ silver := (List.mem_filter.1 hgL).1
        have : g = f := nodup_map_inj hnd hgs hf hgname
        rw [this, hnone] at hgc
        cases hgc
  · intro f hf hnot
    rw [get_processed_files_snd silver hnd] at hnot
    by_contra hcon
    rw [Decidable.not_and_iff_or_not] at hcon
    have : (!(nameEndsWith f.name ".parquet" && f.content.isSome)) = true := by
      rcases hcon with h | h
      · simp [Bool.of_not_eq_true h]
      · simp [Bool.of_not_eq_true h]
    exact hnot (List.mem_filter.2 ⟨hf, this⟩)

/-- Witness for C8 at a concrete three-file silver zone containing an
unreadable parquet file. -/
theorem C8_reclaim_state_on_error_witness :
    (∀ f ∈ [FileEntry.mk "a_1.parquet" (some [[("id", "x")]]),
            FileEntry.mk "bad.parquet" none,
            FileEntry.mk "keep.txt" (some [])], f.content = none →
      f ∈ (get_processed_files [FileEntry.mk "a_1.parquet" (some [[("id", "x")]]),
            FileEntry.mk "bad.parquet" none,
            FileEntry.mk "keep.txt" (some [])]).2 ∧
      f.name ∉ (get_processed_files [FileEntry.mk "a_1.parquet" (some [[("id", "x")]]),
            FileEntry.mk "bad.parquet" none,
            FileEntry.mk "keep.txt" (some [])]).1.map Prod.fst)
    ∧ (∀ f ∈ [FileEntry.mk "a_1.parquet" (some [[("id", "x")]]),
            FileEntry.mk "bad.parquet" none,
            FileEntry.mk "keep.txt" (some [])],
        f ∉ (get_processed_files [FileEntry.mk "a_1.parquet" (some [[("id", "x")]]),
            FileEntry.mk "bad.parquet" none,
            FileEntry.mk "keep.txt" (some [])]).2 →
        nameEndsWith f.name ".parquet" = true ∧ f.content.isSome = true) :=
  C8_reclaim_state_on_error
    [FileEntry.mk "a_1.parquet" (some [[("id", "x")]]),
     FileEntry.mk "bad.parquet" none,
     FileEntry.mk "keep.txt" (some [])] (by decide)

/-! ### Claim C10 -/

/-- C10: bronze selection keys off the literal substring `2023-10-27`
anywhere in the file name with no extension restriction, while silver
reclaim selects only `.parquet`-suffixed names. -/
theorem C10_selection_predicates (bronze silver : List FileEntry) (now : String)
    (hb : (bronze.map FileEntry.name).Nodup)
    (hs : (silver.map FileEntry.name).Nodup) :
    (∀ p ∈ process_files bronze now, ∃ f ∈ bronze,
        p.1 = f.name ∧ containsSub f.name "2023-10-27" = true)
    ∧ (∀ f ∈ bronze, containsSub f.name "2023-10-27" = true →
        ∀ kv, processOne now f = some kv → kv ∈ process_files bronze now)
    ∧ (∀ p ∈ (get_processed_files silver).1, nameEndsWith p.1 ".parquet" = true)
    ∧ (∀ g ∈ silver, nameEndsWith g.name ".parquet" = false →
        g ∈ (get_processed_files silver).2) := by
  refine ⟨?_, ?_, ?_, ?_⟩
  · intro p hp
    rw [process_files_eq bronze now hb] at hp
    rcases List.mem_filterMap.1 hp with ⟨f, hfL, hfp⟩
    exact ⟨f, (List.mem_filter.1 hfL).1, processOne_key hfp,
      (List.mem_filter.1 hfL).2⟩
  · intro f hf hcont kv hkv
    rw [process_files_eq bronze now hb]
    exact List.mem_filterMap.2 ⟨f, List.mem_filter.2 ⟨hf, hcont⟩, hkv⟩
  · intro p hp
    rw [get_processed_files_fst silver hs] at hp
    rcases List.mem_filterMap.1 hp with ⟨f, hfL, hfp⟩
    cases hc : f.content with
    | none => rw [hc] at hfp; cases hfp
    | some df =>
      rw [hc] at hfp
      rw [← Option.some.inj hfp]
      exact (List.mem_filter.1 hfL).2
  · intro g hg hge
    rw [get_processed_files_snd silver hs]
    exact List.mem_filter.2 ⟨hg, by simp [hge]⟩

/-- Bronze zone exercising C10: a non-CSV extension carrying the date
substring, and a file without the substring. -/
def bronzeExC10 : List FileEntry :=
  [⟨"videos_2023-10-27.weird", some [[("publishedAt", "2023-10-27T00:00:00Z")]]⟩,
   ⟨"videos_nodate.csv", some [[("publishedAt", "2023-10-27T00:00:00Z")]]⟩]

/-- Silver zone exercising C10: one file without the parquet suffix. -/
def silverExC10 : List FileEntry := [⟨"notparquet.csv", some []⟩]

/-- Witness for C10 at the concrete zones above. -/
theorem C10_selection_predicates_witness :
    (∀ p ∈ process_files bronzeExC10 "N", ∃ f ∈ bronzeExC10,
        p.1 = f.name ∧ containsSub f.name "2023-10-27" = true)
    ∧ (∀ f ∈ bronzeExC10, containsSub f.name "2023-10-27" = true →
        ∀ kv, processOne "N" f = some kv → kv ∈ process_files bronzeExC10 "N")
    ∧ (∀ p ∈ (get_processed_files silverExC10).1, nameEndsWith p.1 ".parquet" = true)
    ∧ (∀ g ∈ silverExC10, nameEndsWith g.name ".parquet" = false →
        g ∈ (get_processed_files silverExC10).2) :=
  C10_selection_predicates bronzeExC10 silverExC10 "N" (by decide) (by decide)

/-! ### Outcome of `consolidated_all_files` by bucket shape -/

/-- Empty channel bucket: the first concat raises, the persist loop
aborts at the channel branch, nothing is written. -/
theorem consolidated_channel_empty (bronze silver : List FileEntry) (now : String)
    (hc : chanBucket bronze silver now = []) :
    consolidated_all_files bronze silver now =
      ⟨none, none, (get_processed_files silver).2⟩ := by
  unfold consolidated_all_files
  rw [hc]

/-- Non-empty channel bucket, empty videos bucket: the channel output is
written, the videos branch stops at `next(iter(...))`. -/
theorem consolidated_videos_empty (bronze silver : List FileEntry) (now : String)
    (k : String) (df : DataFrame) (cs : List (String × DataFrame))
    (hc : chanBucket bronze silver now = (k, df) :: cs)
    (hv : vidBucket bronze silver now = []) :
    consolidated_all_files bronze silver now =
      ⟨some (outName k now, concatTables ((k, df) :: cs)), none,
       (get_processed_files silver).2 ++
         [mkEntry (outName k now, concatTables ((k, df) :: cs))]⟩ := by
  unfold consolidated_all_files
  rw [hc, hv]
  simp

/-- Both buckets non-empty: both outputs are written, channel first. -/
theorem consolidated_both (bronze silver : List FileEntry) (now : String)
    (k vk : String) (df vdf : DataFrame) (cs vs : List (String × DataFrame))
    (hc : chanBucket bronze silver now = (k, df) :: cs)
    (hv : vidBucket bronze silver now = (vk, vdf) :: vs) :
    consolidated_all_files bronze silver now =
      ⟨some (outName k now, concatTables ((k, df) :: cs)),
       some (outName vk now, concatTables ((vk, vdf) :: vs)),
       (get_processed_files silver).2 ++
         [mkEntry (outName k now, concatTables ((k, df) :: cs)),
          mkEntry (outName vk now, concatTables ((vk, vdf) :: vs))]⟩ := by
  unfold consolidated_all_files
  rw [hc, hv]
  simp

/-! ### Claim C2 -/

/-- Bronze zone for the C2 counterexample: one well-formed videos file,
no channel data anywhere. -/
def bronzeExC2 : List FileEntry :=
  [⟨"videos_a_2023-10-27.csv", some [[("publishedAt", "2023-10-27T00:00:00Z"), ("id", "v1")]]⟩]

/-- Counterexample to C2 as stated: with an empty channel bucket and a
non-empty videos bucket, the videos silver output is *not* written either
 - the channel branch of the persist loop raises `StopIteration` first and
aborts the loop, so the non-empty kind loses its output too. -/
theorem C2_counterexample_channel_bucket_empty :
    vidBucket bronzeExC2 [] "2023-11-01 00:00:00" ≠ []
    ∧ chanBucket bronzeExC2 [] "2023-11-01 00:00:00" = []
    ∧ (consolidated_all_files bronzeExC2 [] "2023-11-01 00:00:00").videosOut = none := by
  decide

/-- C2 amended: the empty-bucket failure is caught and never escapes
(`consolidated_all_files` is total), and when the *videos* bucket is the
empty one only the videos output is missing; but when the *channel* bucket
is empty, no output is written at all - the videos output is lost as
well. -/
theorem C2_amended_empty_bucket_behavior (bronze silver : List FileEntry) (now : String) :
    (chanBucket bronze silver now ≠ [] → vidBucket bronze silver now = [] →
      ((consolidated_all_files bronze silver now).channelOut.isSome = true
        ∧ (consolidated_all_files bronze silver now).videosOut = none))
    ∧ (chanBucket bronze silver now = [] →
      ((consolidated_all_files bronze silver now).channelOut = none
        ∧ (consolidated_all_files bronze silver now).videosOut = none
        ∧ (consolidated_all_files bronze silver now).silverAfter =
            (get_processed_files silver).2)) := by
  constructor
  · intro hne hv
    rcases List.exists_cons_of_ne_nil hne with ⟨c, cs, hc⟩
    rw [consolidated_videos_empty bronze silver now c.1 c.2 cs (by rw [← hc]) hv]
    exact ⟨rfl, rfl⟩
  · intro hc
    rw [consolidated_channel_empty bronze silver now hc]
    exact ⟨rfl, rfl, rfl⟩

/-- Bronze zone for the C2 witness: one channel file only. -/
def bronzeExC2w : List FileEntry :=
  [⟨"channel_a_2023-10-27.csv", some [[("publishedAt", "2023-10-27T00:00:00Z"), ("id", "c1")]]⟩]

/-- Witness for the amended C2: with channel data and no videos data the
channel output is written and the videos output is skipped; with no
channel data nothing is written. -/
theorem C2_amended_witness :
    ((consolidated_all_files bronzeExC2w [] "N").channelOut.isSome = true
      ∧ (consolidated_all_files bronzeExC2w [] "N").videosOut = none)
    ∧ ((consolidated_all_files bronzeExC2 [] "N").channelOut = none
      ∧ (consolidated_all_files bronzeExC2 [] "N").videosOut = none
      ∧ (consolidated_all_files bronzeExC2 [] "N").silverAfter =
          (get_processed_files ([] : List FileEntry)).2) :=
  ⟨(C2_amended_empty_bucket_behavior bronzeExC2w [] "N").1 (by decide) (by decide),
   (C2_amended_empty_bucket_behavior bronzeExC2 [] "N").2 (by decide)⟩

/-! ### Bucket closed forms -/

/-- Keys of the reclaimed dict are a sublist of the silver names. -/
theorem restored_keys_sublist (silver : List FileEntry)
    (hs : (silver.map FileEntry.name).Nodup) :
    ((get_processed_files silver).1.map Prod.fst).Sublist (silver.map FileEntry.name) := by
  rw [get_processed_files_fst silver hs]
  refine List.Sublist.trans
    (filterMap_keys_sublist _ FileEntry.name ?_ _)
    ((List.filter_sublist silver).map FileEntry.name)
  intro f kv hkv
  cases hc : f.content with
  | none => rw [hc] at hkv; cases hkv
  | some df =>
    rw [hc] at hkv
    rw [← Option.some.inj hkv]

/-- Keys of the processed dict are a sublist of the bronze names. -/
theorem processed_keys_sublist (bronze : List FileEntry) (now : String)
    (hb : (bronze.map FileEntry.name).Nodup) :
    ((process_files bronze now).map Prod.fst).Sublist (bronze.map FileEntry.name) := by
  rw [process_files_eq bronze now hb]
  exact List.Sublist.trans
    (filterMap_keys_sublist _ FileEntry.name (fun f kv h => processOne_key h) _)
    ((List.filter_sublist bronze).map FileEntry.name)

/-- Distinct zone-wide names give distinct keys in the combined dict. -/
theorem combined_keys_nodup (bronze silver : List FileEntry) (now : String)
    (hnn : (silver.map FileEntry.name ++ bronze.map FileEntry.name).Nodup) :
    (((get_processed_files silver).1 ++ process_files bronze now).map Prod.fst).Nodup := by
  have hs : (silver.map FileEntry.name).Nodup :=
    hnn.sublist (List.sublist_append_left _ _)
  have hb : (bronze.map FileEntry.name).Nodup :=
    hnn.sublist (List.sublist_append_right _ _)
  rw [List.map_append]
  exact hnn.sublist ((restored_keys_sublist silver hs).append (processed_keys_sublist bronze now hb))

/-- The channel bucket is the non-`videos_` entries, reclaimed first. -/
theorem chanBucket_eq (bronze silver : List FileEntry) (now : String)
    (hnn : (silver.map FileEntry.name ++ bronze.map FileEntry.name).Nodup) :
    chanBucket bronze silver now =
      ((get_processed_files silver).1 ++ process_files bronze now).filter
        (fun p => !isVideosName p.1) :=
  bucketFold_eq _ _ (combined_keys_nodup bronze silver now hnn)

/-- The videos bucket is the `videos_` entries, reclaimed first. -/
theorem vidBucket_eq (bronze silver : List FileEntry) (now : String)
    (hnn : (silver.map FileEntry.name ++ bronze.map FileEntry.name).Nodup) :
    vidBucket bronze silver now =
      ((get_processed_files silver).1 ++ process_files bronze now).filter
        (fun p => isVideosName p.1) :=
  bucketFold_eq _ _ (combined_keys_nodup bronze silver now hnn)

/-- The channel output written whenever the channel bucket is non-empty. -/
theorem consolidated_channelOut (bronze silver : List FileEntry) (now : String)
    (k : String) (df : DataFrame) (cs : List (String × DataFrame))
    (hc : chanBucket bronze silver now = (k, df) :: cs) :
    (consolidated_all_files bronze silver now).channelOut =
      some (outName k now, concatTables ((k, df) :: cs)) := by
  cases hv : vidBucket bronze silver now with
  | nil => rw [consolidated_videos_empty bronze silver now k df cs hc hv]
  | cons v vs =>
    rw [consolidated_both bronze silver now k v.1 df v.2 cs vs hc hv]

/-- The videos output written whenever both buckets are non-empty. -/
theorem consolidated_videosOut (bronze silver : List FileEntry) (now : String)
    (k vk : String) (df vdf : DataFrame) (cs vs : List (String × DataFrame))
    (hc : chanBucket bronze silver now = (k, df) :: cs)
    (hv : vidBucket bronze silver now = (vk, vdf) :: vs) :
    (consolidated_all_files bronze silver now).videosOut =
      some (outName vk now, concatTables ((vk, vdf) :: vs)) := by
  rw [consolidated_both bronze silver now k vk df vdf cs vs hc hv]

/-- A successfully reclaimed parquet file appears in the reclaimed dict
with its table verbatim. -/
theorem reclaimed_mem (silver : List FileEntry) (f : FileEntry) (df : DataFrame)
    (hs : (silver.map FileEntry.name).Nodup)
    (hf : f ∈ silver) (hdf : f.content = some df)
    (hpq : nameEndsWith f.name ".parquet" = true) :
    (f.name, df) ∈ (get_processed_files silver).1 := by
  rw [get_processed_files_fst silver hs]
  exact List.mem_filterMap.2 ⟨f, List.mem_filter.2 ⟨hf, hpq⟩, by rw [hdf]; rfl⟩

/-! ### Claim C5 -/

/-- Rows of the readable silver file in the C5 counterexample. -/
def dfExC5 : DataFrame := [[("id", "a1"), ("_datetime", "old")]]

/-- Silver zone of the C5 counterexample: one readable videos parquet file
and one unreadable parquet file; the bronze zone is empty. -/
def silverExC5 : List FileEntry :=
  [⟨"videos_a_2023-10-27.parquet", some dfExC5⟩, ⟨"videos_b.parquet", none⟩]

/-- Counterexample to C5 as stated: after the run the unreadable parquet
file is still present in the silver zone (not every pre-existing parquet
file is deleted), and the readable file was deleted while its non-empty
rows appear in *no* consolidated output - the run wrote nothing because
the channel bucket was empty. -/
theorem C5_counterexample_reclaim_loss :
    consolidated_all_files [] silverExC5 "N" =
      ⟨none, none, [⟨"videos_b.parquet", none⟩]⟩
    ∧ dfExC5 ≠ [] := by
  decide

/-- C5 amended: a silver parquet file that is *successfully read* is
deleted by the reclaim step, and - provided the run's channel bucket is
non-empty, so that the persist loop is not aborted - its rows appear
contiguously in the consolidated output of its kind.  (An unreadable file
is left in place, see C8; if the channel bucket is empty nothing is
written and reclaimed rows are dropped, see the counterexample.) -/
theorem C5_amended_reclaim (bronze silver : List FileEntry) (now : String)
    (f : FileEntry) (df : DataFrame)
    (hnn : (silver.map FileEntry.name ++ bronze.map FileEntry.name).Nodup)
    (hf : f ∈ silver) (hdf : f.content = some df)
    (hpq : nameEndsWith f.name ".parquet" = true)
    (hchan : chanBucket bronze silver now ≠ []) :
    f.name ∉ (((consolidated_all_files bronze silver now).silverAfter.take
        (get_processed_files silver).2.length).map FileEntry.name)
    ∧ f.name ∉ (get_processed_files silver).2.map FileEntry.name
    ∧ (isVideosName f.name = true →
        ∃ n L R, (consolidated_all_files bronze silver now).videosOut =
          some (n, L ++ (df ++ R)))
    ∧ (isVideosName f.name = false →
        ∃ n L R, (consolidated_all_files bronze silver now).channelOut =
          some (n, L ++ (df ++ R))) := by
  have hs : (silver.map FileEntry.name).Nodup :=
    hnn.sublist (List.sublist_append_left _ _)
  have hnotin : f.name ∉ (get_processed_files silver).2.map FileEntry.name := by
    rw [get_processed_files_snd silver hs]
    intro hmem
    rcases List.mem_map.1 hmem with ⟨g, hgmem, hgname⟩
    have hgs : g ∈ silver := (List.mem_filter.1 hgmem).1
    have : g = f := nodup_map_inj hs hgs hf hgname
    have hgp := (List.mem_filter.1 hgmem).2
    rw [this, hpq, hdf] at hgp
    simp at hgp
  have hmemR : (f.name, df) ∈ (get_processed_files silver).1 :=
    reclaimed_mem silver f df hs hf hdf hpq
  have hmemC : (f.name, df) ∈ (get_processed_files silver).1 ++ process_files bronze now :=
    List.mem_append_left _ hmemR
  refine ⟨?_, hnotin, ?_, ?_⟩
  · intro hmem
    apply hnotin
    have hpre : (consolidated_all_files bronze silver now).silverAfter.take
        (get_processed_files silver).2.length = (get_processed_files silver).2 := by
      rcases List.exists_cons_of_ne_nil hchan with ⟨c, cs, hc⟩
      cases hv : vidBucket bronze silver now with
      | nil =>
        rw [consolidated_videos_empty bronze silver now c.1 c.2 cs hc hv]
        exact List.take_left _ _
      | cons v vs =>
        rw [consolidated_both bronze silver now c.1 v.1 c.2 v.2 cs vs hc hv]
        exact List.take_left _ _
    rw [hpre] at hmem
    exact hmem
  · intro hvid
    have hmemV : (f.name, df) ∈ vidBucket bronze silver now := by
      rw [vidBucket_eq bronze silver now hnn]
      exact List.mem_filter.2 ⟨hmemC, by simpa using hvid⟩
    rcases List.exists_cons_of_ne_nil hchan with ⟨c, cs, hc⟩
    rcases List.exists_cons_of_ne_nil (List.ne_nil_of_mem hmemV) with ⟨v, vs, hv⟩
    rcases concatTables_decomp (hv ▸ hmemV) with ⟨L, R, hLR⟩
    exact ⟨outName v.1 now, L, R, by
      rw [consolidated_videosOut bronze silver now c.1 v.1 c.2 v.2 cs vs hc hv, hLR]⟩
  · intro hchanName
    have hmemK : (f.name, df) ∈ chanBucket bronze silver now := by
      rw [chanBucket_eq bronze silver now hnn]
      exact List.mem_filter.2 ⟨hmemC, by simp [hchanName]⟩
    rcases List.exists_cons_of_ne_nil hchan with ⟨c, cs, hc⟩
    rcases concatTables_decomp (hc ▸ hmemK) with ⟨L, R, hLR⟩
    exact ⟨outName c.1 now, L, R, by
      rw [consolidated_channelOut bronze silver now c.1 c.2 cs hc, hLR]⟩

/-- Silver zone for the C5 witness: one readable videos parquet file. -/
def silverExC5w : List FileEntry :=
  [⟨"videos_w_2023-10-27.parquet", some [[("id", "w1"), ("_datetime", "old")]]⟩]

/-- Witness for the amended C5 using channel bronze data so the persist
loop runs: the reclaimed file's name is gone from the remaining silver
files and its rows land in the videos output. -/
theorem C5_amended_reclaim_witness :
    "videos_w_2023-10-27.parquet" ∉
      ((consolidated_all_files bronzeExC2w silverExC5w "N").silverAfter.take
        (get_processed_files silverExC5w).2.length).map FileEntry.name
    ∧ "videos_w_2023-10-27.parquet" ∉ (get_processed_files silverExC5w).2.map FileEntry.name
    ∧ (isVideosName "videos_w_2023-10-27.parquet" = true →
        ∃ n L R, (consolidated_all_files bronzeExC2w silverExC5w "N").videosOut =
          some (n, L ++ ([[("id", "w1"), ("_datetime", "old")]] ++ R)))
    ∧ (isVideosName "videos_w_2023-10-27.parquet" = false →
        ∃ n L R, (consolidated_all_files bronzeExC2w silverExC5w "N").channelOut =
          some (n, L ++ ([[("id", "w1"), ("_datetime", "old")]] ++ R))) :=
  C5_amended_reclaim bronzeExC2w silverExC5w "N"
    ⟨"videos_w_2023-10-27.parquet", some [[("id", "w1"), ("_datetime", "old")]]⟩
    [[("id", "w1"), ("_datetime", "old")]]
    (by decide) (by decide) (by decide) (by decide) (by decide)

/-! ### Claim C6 -/

/-- Concatenation distributes over bucket append. -/
theorem concatTables_append (a b : List (String × DataFrame)) :
    concatTables (a ++ b) = concatTables a ++ concatTables b := by
  simp [concatTables]

/-- Row count of a concatenated bucket is the sum of the per-table counts. -/
theorem concatTables_length (d : List (String × DataFrame)) :
    (concatTables d).length = (d.map (fun p => p.2.length)).sum := by
  simp only [concatTables, List.length_flatten, List.map_map]
  rfl

/-- Bronze zone of the C6 counterexample: one two-row videos file, no
channel data. -/
def bronzeExC6 : List FileEntry :=
  [⟨"videos_q_2023-10-27.csv",
    some [[("publishedAt", "2023-10-27T01:02:03Z")], [("publishedAt", "2023-10-27T04:05:06Z")]]⟩]

/-- Counterexample to C6 as stated: the videos bucket is non-empty, yet no
consolidated videos table is produced at all (the channel bucket being
empty aborts the run before the videos write). -/
theorem C6_counterexample_missing_videos_output :
    vidBucket bronzeExC6 [] "M" ≠ []
    ∧ (consolidated_all_files bronzeExC6 [] "M").videosOut = none := by
  decide

/-- C6 amended: whenever the channel bucket is non-empty its consolidated
table is written and is exactly the concatenation of the reclaimed-silver
channel tables followed by the freshly parsed bronze channel tables, with
row count the sum of the inputs' row counts; the same holds for the videos
bucket provided the channel bucket is non-empty too. -/
theorem C6_amended_concatenation (bronze silver : List FileEntry) (now : String)
    (hnn : (silver.map FileEntry.name ++ bronze.map FileEntry.name).Nodup) :
    (chanBucket bronze silver now ≠ [] →
      (∃ n, (consolidated_all_files bronze silver now).channelOut =
        some (n, concatTables ((get_processed_files silver).1.filter (fun p => !isVideosName p.1))
          ++ concatTables ((process_files bronze now).filter (fun p => !isVideosName p.1))))
      ∧ (concatTables ((get_processed_files silver).1.filter (fun p => !isVideosName p.1))
          ++ concatTables ((process_files bronze now).filter (fun p => !isVideosName p.1))).length
        = (((get_processed_files silver).1.filter (fun p => !isVideosName p.1)
            ++ (process_files bronze now).filter (fun p => !isVideosName p.1)).map
              (fun p => p.2.length)).sum)
    ∧ (chanBucket bronze silver now ≠ [] → vidBucket bronze silver now ≠ [] →
      (∃ n, (consolidated_all_files bronze silver now).videosOut =
        some (n, concatTables ((get_processed_files silver).1.filter (fun p => isVideosName p.1))
          ++ concatTables ((process_files bronze now).filter (fun p => isVideosName p.1))))
      ∧ (concatTables ((get_processed_files silver).1.filter (fun p => isVideosName p.1))
          ++ concatTables ((process_files bronze now).filter (fun p => isVideosName p.1))).length
        = (((get_processed_files silver).1.filter (fun p => isVideosName p.1)
            ++ (process_files bronze now).filter (fun p => isVideosName p.1)).map
              (fun p => p.2.length)).sum) := by
  constructor
  · intro hchan
    rcases List.exists_cons_of_ne_nil hchan with ⟨c, cs, hc⟩
    have h1 : (consolidated_all_files bronze silver now).channelOut =
        some (outName c.1 now, concatTables (chanBucket bronze silver now)) := by
      rw [consolidated_channelOut bronze silver now c.1 c.2 cs hc, hc]
    rw [chanBucket_eq bronze silver now hnn, List.filter_append, concatTables_append] at h1
    refine ⟨⟨outName c.1 now, h1⟩, ?_⟩
    rw [← concatTables_append, concatTables_length]
  · intro hchan hvid
    rcases List.exists_cons_of_ne_nil hchan with ⟨c, cs, hc⟩
    rcases List.exists_cons_of_ne_nil hvid with ⟨v, vs, hv⟩
    have h1 : (consolidated_all_files bronze silver now).videosOut =
        some (outName v.1 now, concatTables (vidBucket bronze silver now)) := by
      rw [consolidated_videosOut bronze silver now c.1 v.1 c.2 v.2 cs vs hc hv, hv]
    rw [vidBucket_eq bronze silver now hnn, List.filter_append, concatTables_append] at h1
    refine ⟨⟨outName v.1 now, h1⟩, ?_⟩
    rw [← concatTables_append, concatTables_length]

/-- Bronze zone for the C6 witness: a channel file and a videos file. -/
def bronzeExC6w : List FileEntry :=
  [⟨"channel_w_2023-10-27.csv", some [[("publishedAt", "2023-10-27T00:00:00Z"), ("id", "c1")]]⟩,
   ⟨"videos_w_2023-10-27.csv", some [[("publishedAt", "2023-10-27T08:09:10Z"), ("id", "v1")]]⟩]

/-- Witness for the amended C6 on a run with one reclaimed videos table
and fresh channel plus videos tables. -/
theorem C6_amended_concatenation_witness :
    ((∃ n, (consolidated_all_files bronzeExC6w silverExC5w "N").channelOut =
      some (n, concatTables ((get_processed_files silverExC5w).1.filter (fun p => !isVideosName p.1))
        ++ concatTables ((process_files bronzeExC6w "N").filter (fun p => !isVideosName p.1))))
    ∧ (concatTables ((get_processed_files silverExC5w).1.filter (fun p => !isVideosName p.1))
        ++ concatTables ((process_files bronzeExC6w "N").filter (fun p => !isVideosName p.1))).length
      = (((get_processed_files silverExC5w).1.filter (fun p => !isVideosName p.1)
          ++ (process_files bronzeExC6w "N").filter (fun p => !isVideosName p.1)).map
            (fun p => p.2.length)).sum)
    ∧ ((∃ n, (consolidated_all_files bronzeExC6w silverExC5w "N").videosOut =
      some (n, concatTables ((get_processed_files silverExC5w).1.filter (fun p => isVideosName p.1))
        ++ concatTables ((process_files bronzeExC6w "N").filter (fun p => isVideosName p.1))))
    ∧ (concatTables ((get_processed_files silverExC5w).1.filter (fun p => isVideosName p.1))
        ++ concatTables ((process_files bronzeExC6w "N").filter (fun p => isVideosName p.1))).length
      = (((get_processed_files silverExC5w).1.filter (fun p => isVideosName p.1)
          ++ (process_files bronzeExC6w "N").filter (fun p => isVideosName p.1)).map
            (fun p => p.2.length)).sum) :=
  ⟨(C6_amended_concatenation bronzeExC6w silverExC5w "N" (by decide)).1 (by decide),
   (C6_amended_concatenation bronzeExC6w silverExC5w "N" (by decide)).2 (by decide) (by decide)⟩

/-! ### Claim C9 -/

/-- Lookup skips a head pair with a different key. -/
theorem getCol_cons_of_ne (p : String × String) (l : Row) (k : String)
    (hpk : ¬ p.1 = k) : getCol (p :: l) k = getCol l k := by
  simp [getCol, List.find?_cons_of_neg, hpk]

/-- Lookup stops at a head pair with the matching key. -/
theorem getCol_cons_of_eq (p : String × String) (l : Row) (k : String)
    (hpk : p.1 = k) : getCol (p :: l) k = some p.2 := by
  simp [getCol, List.find?_cons_of_pos, hpk]

/-- Appending a fresh column makes it visible to lookup. -/
theorem getCol_append_single (r : Row) (k v : String)
    (h : r.any (fun p => p.1 = k) = false) : getCol (r ++ [(k, v)]) k = some v := by
  induction r with
  | nil => simp [getCol]
  | cons p rest ih =>
    simp only [List.any_cons, Bool.or_eq_false_iff] at h
    have hpk : ¬ (p.1 = k) := by
      intro he
      rw [he] at h
      simp at h
    rw [List.cons_append, getCol_cons_of_ne p _ k hpk]
    exact ih h.2

/-- Overwriting a column in place: the lookup sees the new value exactly
when the column existed. -/
theorem getCol_map_set (r : Row) (k v : String) :
    getCol (r.map (fun p => if p.1 = k then (k, v) else p)) k =
      (getCol r k).map (fun _ => v) := by
  induction r with
  | nil => simp [getCol]
  | cons p rest ih =>
    by_cases hpk : p.1 = k
    · rw [List.map_cons, if_pos hpk, getCol_cons_of_eq _ _ k rfl, getCol_cons_of_eq p _ k hpk]
      rfl
    · rw [List.map_cons, if_neg hpk, getCol_cons_of_ne _ _ k hpk, getCol_cons_of_ne p _ k hpk]
      exact ih

/-- Column assignment then lookup of the same column. -/
theorem getCol_dictSet (r : Row) (k v : String) : getCol (dictSet r k v) k = some v := by
  unfold dictSet
  cases hany : r.any (fun p => p.1 = k) with
  | false =>
    rw [if_neg (by simp [hany])]
    exact getCol_append_single r k v hany
  | true =>
    rw [if_pos (by simp [hany]), getCol_map_set]
    rcases List.any_eq_true.1 hany with ⟨p, hp, hpk⟩
    cases hg : getCol r k with
    | some w => rfl
    | none =>
      unfold getCol at hg
      rcases Option.map_eq_none'.1 hg with hfind
      have := List.find?_eq_none.1 hfind p hp
      exact absurd (by simp [of_decide_eq_true hpk]) this

/-- Appending a pair with a different key does not affect lookup. -/
theorem getCol_append_ne (r : Row) (k k' v : String) (hne : k ≠ k') :
    getCol (r ++ [(k', v)]) k = getCol r k := by
  induction r with
  | nil => simp [getCol, show ¬ (k' = k) from fun h => hne h.symm]
  | cons p rest ih =>
    by_cases hpk : p.1 = k
    · rw [List.cons_append, getCol_cons_of_eq p _ k hpk, getCol_cons_of_eq p _ k hpk]
    · rw [List.cons_append, getCol_cons_of_ne p _ k hpk, getCol_cons_of_ne p _ k hpk]
      exact ih

/-- Overwriting a different column in place does not affect lookup. -/
theorem getCol_map_set_ne (r : Row) (k k' v : String) (hne : k ≠ k') :
    getCol (r.map (fun p => if p.1 = k' then (k', v) else p)) k = getCol r k := by
  induction r with
  | nil => rfl
  | cons p rest ih =>
    by_cases hpp : p.1 = k'
    · have hpk : ¬ (p.1 = k) := by
        rw [hpp]
        exact fun h => hne h.symm
      rw [List.map_cons, if_pos hpp,
        getCol_cons_of_ne _ _ k (show ¬ ((k', v).1 = k) from fun h => hne h.symm),
        getCol_cons_of_ne p _ k hpk]
      exact ih
    · by_cases hpk : p.1 = k
      · rw [List.map_cons, if_neg hpp, getCol_cons_of_eq p _ k hpk, getCol_cons_of_eq p _ k hpk]
      · rw [List.map_cons, if_neg hpp, getCol_cons_of_ne p _ k hpk, getCol_cons_of_ne p _ k hpk]
        exact ih

/-- Column assignment leaves other columns untouched. -/
theorem getCol_dictSet_ne (r : Row) (k k' v : String) (hne : k ≠ k') :
    getCol (dictSet r k' v) k = getCol r k := by
  unfold dictSet
  cases hany : r.any (fun p => p.1 = k') with
  | false =>
    rw [if_neg (by simp [hany])]
    exact getCol_append_ne r k k' v hne
  | true =>
    rw [if_pos (by simp [hany])]
    exact getCol_map_set_ne r k k' v hne

/-- Every row stamped by `add_quality_columns` carries the run's
provenance values. -/
theorem add_quality_marks (now : String) (df : DataFrame) :
    ∀ row ∈ add_quality_columns now df,
      getCol row "_datetime" = some now ∧ getCol row "_source" = some "YouTube" := by
  intro row hrow
  rcases List.mem_map.1 hrow with ⟨r, _, hr⟩
  constructor
  · rw [← hr]
    exact getCol_dictSet _ "_datetime" now
  · rw [← hr, getCol_dictSet_ne _ "_source" "_datetime" now (by decide)]
    exact getCol_dictSet _ "_source" "YouTube"

/-- C9: a reclaimed silver table enters the consolidation verbatim - its
rows (and in particular their original `_source`/`_datetime` values) are
not touched - while publishedAt normalization and the provenance columns
are applied to the freshly parsed bronze tables, whose every row carries
`_source = "YouTube"` and `_datetime = now`. -/
theorem C9_reclaimed_rows_unchanged (bronze silver : List FileEntry) (now : String)
    (f : FileEntry) (df : DataFrame)
    (hnn : (silver.map FileEntry.name ++ bronze.map FileEntry.name).Nodup)
    (hf : f ∈ silver) (hdf : f.content = some df)
    (hpq : nameEndsWith f.name ".parquet" = true) :
    (f.name, df) ∈ (get_processed_files silver).1
    ∧ (isVideosName f.name = true →
        ∃ L R, concatTables (vidBucket bronze silver now) = L ++ (df ++ R))
    ∧ (isVideosName f.name = false →
        ∃ L R, concatTables (chanBucket bronze silver now) = L ++ (df ++ R))
    ∧ (∀ p ∈ process_files bronze now, ∀ row ∈ p.2,
        getCol row "_datetime" = some now ∧ getCol row "_source" = some "YouTube") := by
  have hs : (silver.map FileEntry.name).Nodup :=
    hnn.sublist (List.sublist_append_left _ _)
  have hb : (bronze.map FileEntry.name).Nodup :=
    hnn.sublist (List.sublist_append_right _ _)
  have hmemR : (f.name, df) ∈ (get_processed_files silver).1 :=
    reclaimed_mem silver f df hs hf hdf hpq
  have hmemC : (f.name, df) ∈ (get_processed_files silver).1 ++ process_files bronze now :=
    List.mem_append_left _ hmemR
  refine ⟨hmemR, ?_, ?_, ?_⟩
  · intro hvid
    have hmemV : (f.name, df) ∈ vidBucket bronze silver now := by
      rw [vidBucket_eq bronze silver now hnn]
      exact List.mem_filter.2 ⟨hmemC, by simpa using hvid⟩
    exact concatTables_decomp hmemV
  · intro hchanName
    have hmemK : (f.name, df) ∈ chanBucket bronze silver now := by
      rw [chanBucket_eq bronze silver now hnn]
      exact List.mem_filter.2 ⟨hmemC, by simp [hchanName]⟩
    exact concatTables_decomp hmemK
  · intro p hp row hrow
    rw [process_files_eq bronze now hb] at hp
    rcases List.mem_filterMap.1 hp with ⟨g, _, hgp⟩
    unfold processOne at hgp
    cases hgc : g.content with
    | none => rw [hgc] at hgp; cases hgp
    | some df0 =>
      rw [hgc] at hgp
      cases hpr : processRows df0 with
      | none => simp [hpr] at hgp
      | some df2 =>
        simp only [hpr, Option.some_bind, Option.map_some'] at hgp
        have hp2 : p.2 = add_quality_columns now df2 := by
          rw [← Option.some.inj hgp]
        rw [hp2] at hrow
        exact add_quality_marks now df2 row hrow

/-- Witness for C9: a reclaimed videos parquet table with old provenance
values next to one freshly parsed bronze videos file. -/
theorem C9_reclaimed_rows_unchanged_witness :
    ("videos_w_2023-10-27.parquet", [[("id", "w1"), ("_datetime", "old")]]) ∈
      (get_processed_files silverExC5w).1
    ∧ (isVideosName "videos_w_2023-10-27.parquet" = true →
        ∃ L R, concatTables (vidBucket bronzeExC6w silverExC5w "N") =
          L ++ ([[("id", "w1"), ("_datetime", "old")]] ++ R))
    ∧ (isVideosName "videos_w_2023-10-27.parquet" = false →
        ∃ L R, concatTables (chanBucket bronzeExC6w silverExC5w "N") =
          L ++ ([[("id", "w1"), ("_datetime", "old")]] ++ R))
    ∧ (∀ p ∈ process_files bronzeExC6w "N", ∀ row ∈ p.2,
        getCol row "_datetime" = some "N" ∧ getCol row "_source" = some "YouTube") :=
  C9_reclaimed_rows_unchanged bronzeExC6w silverExC5w "N"
    ⟨"videos_w_2023-10-27.parquet", some [[("id", "w1"), ("_datetime", "old")]]⟩
    [[("id", "w1"), ("_datetime", "old")]]
    (by decide) (by decide) (by decide) (by decide)

/-! ### Claim C7 -/

/-- C7: when the channel lookup yields zero matches the extraction stage
raises before any bronze write, so the bronze zone is unchanged; the
coordinator catches the error and still runs the transformation on the
pre-existing data. -/
theorem C7_lookup_miss_zero_bronze_transformation_runs
    (searchTotal : Option Nat) (fetch : Nat → PageFetch) (nowE now2 : String)
    (bronze0 silver0 : List FileEntry) :
    (main_pipeline none searchTotal fetch nowE now2 bronze0 silver0).bronzeAfter = bronze0
    ∧ (main_pipeline none searchTotal fetch nowE now2 bronze0 silver0).extractErr =
        some PyErr.unboundLocal
    ∧ (main_pipeline none searchTotal fetch nowE now2 bronze0 silver0).transform =
        transformation_full bronze0 silver0 now2 := by
  refine ⟨?_, ?_, ?_⟩ <;>
    simp [main_pipeline, extract_full, extract_all_channel_info_by_usename]

/-! ### Claim C1 -/

/-- Channel attributes used by the C1 evaluation. -/
def chInfoExC1 : ChannelInfo :=
  ⟨"c1", "T", "D", "cu", "2010-01-01T00:00:00Z", "BR", "1", "2", "3"⟩

/-- Fetch behaviour for C1: page 1 succeeds with a continuation token,
page 2's listing call raises. -/
def fetchExC1 : Nat → PageFetch := fun i =>
  if i = 0 then
    .ok ⟨[⟨"v1", "c1", "t", "d", "2023-10-26T00:00:00Z", some ⟨some "5", none, none, none⟩⟩],
      some "tok"⟩
  else .raise

/-- C1 evaluated at the failing input: when a page's listing call itself
raises, the `except` clause runs but the `return` statement reads the
never-assigned `next_page_token`, so `extract_all_videos_info` raises
`UnboundLocalError` out of the loop and `extract_full` aborts - the page-1
records are lost and no videos file is written (only the channel file,
saved before the loop, remains).  A statistics failure inside a page, by
contrast, degrades to an empty page as the spec describes. -/
theorem C1_page_fetch_failure_raises :
    extract_full_videos fetchExC1 = .error .unboundLocal
    ∧ extract_all_videos_info
        (.ok ⟨[⟨"v2", "c1", "t", "d", "p", none⟩], some "tok2"⟩) = .ok ([], some "tok2")
    ∧ extract_full (some chInfoExC1) (some 120) fetchExC1 "E" =
        ([("channel_einerd_E.csv", channelDF chInfoExC1)], some .unboundLocal) := by
  decide

/-! ### Claim C4 -/

/-- When every statistics lookup of a page succeeds, the page contributes
exactly one record per listed item. -/
theorem collectVideos_some_of_stats (items : List VideoItem)
    (h : ∀ it ∈ items, it.statsLookup.isSome = true) :
    ∃ recs, collectVideos items = some recs ∧ recs.length = items.length := by
  induction items with
  | nil => exact ⟨[], rfl, rfl⟩
  | cons it rest ih =>
    have hit := h it (List.mem_cons_self it rest)
    cases hst : it.statsLookup with
    | none => rw [hst] at hit; cases hit
    | some st =>
      rcases ih (fun x hx => h x (List.mem_cons_of_mem _ hx)) with ⟨recs, hr, hlen⟩
      exact ⟨toVideoRec it st :: recs, by simp [collectVideos, hst, hr],
        by simp [hlen]⟩

/-- A successful page contributes at most its item count. -/
theorem collectVideos_length (items : List VideoItem) (recs : List VideoRec)
    (h : collectVideos items = some recs) : recs.length = items.length := by
  induction items generalizing recs with
  | nil => cases h; rfl
  | cons it rest ih =>
    unfold collectVideos at h
    cases hst : it.statsLookup with
    | none => rw [hst] at h; cases h
    | some st =>
      rw [hst] at h
      cases hr : collectVideos rest with
      | none => rw [hr] at h; cases h
      | some recs0 =>
        rw [hr] at h
        rw [← Option.some.inj h]
        simp [ih recs0 hr]

/-- Peeling the first index off a range sum. -/
theorem range_sum_shift (f : Nat → Nat) (n : Nat) :
    ((List.range (n + 1)).map f).sum = f 0 + ((List.range n).map (fun j => f (j + 1))).sum := by
  rw [List.range_succ_eq_map, List.map_cons, List.map_map, List.sum_cons]
  rfl

/-- Sum characterization of the pagination loop on an all-successful
prefix that ends in an absent cursor (relative index version). -/
theorem extractVideosLoop_sum (pages : Nat → PageResponse) :
    ∀ k fuel i acc, k < fuel →
    (pages (i + k)).nextPageToken = none →
    (∀ j, j < k → (pages (i + j)).nextPageToken ≠ none) →
    (∀ j, j ≤ k → ∀ it ∈ (pages (i + j)).items, it.statsLookup.isSome = true) →
    ∃ l, extractVideosLoop (fun n => .ok (pages n)) fuel i acc = .ok l ∧
      l.length = acc.length +
        ((List.range (k + 1)).map (fun j => (pages (i + j)).items.length)).sum := by
  intro k
  induction k with
  | zero =>
    intro fuel i acc hf hnone hprev hstats
    cases fuel with
    | zero => omega
    | succ f =>
      rcases collectVideos_some_of_stats (pages i).items
          (by simpa using hstats 0 (Nat.le_refl 0)) with ⟨recs, hr, hlen⟩
      have hn : (pages i).nextPageToken = none := by simpa using hnone
      refine ⟨acc ++ recs, ?_, ?_⟩
      · simp [extractVideosLoop, extract_all_videos_info, hr, hn]
      · rw [show List.range 1 = [0] from rfl]
        simp [hlen]
  | succ k ih =>
    intro fuel i acc hf hnone hprev hstats
    cases fuel with
    | zero => omega
    | succ f =>
      rcases collectVideos_some_of_stats (pages i).items
          (by simpa using hstats 0 (Nat.zero_le _)) with ⟨recs, hr, hlen⟩
      have htok : (pages i).nextPageToken ≠ none := by
        simpa using hprev 0 (Nat.succ_pos k)
      obtain ⟨t, ht⟩ := Option.ne_none_iff_exists'.1 htok
      have hnone' : (pages (i + 1 + k)).nextPageToken = none := by
        rw [show i + 1 + k = i + (k + 1) from by omega]
        exact hnone
      have hprev' : ∀ j, j < k → (pages (i + 1 + j)).nextPageToken ≠ none := by
        intro j hj
        rw [show i + 1 + j = i + (j + 1) from by omega]
        exact hprev (j + 1) (by omega)
      have hstats' : ∀ j, j ≤ k → ∀ it ∈ (pages (i + 1 + j)).items,
          it.statsLookup.isSome = true := by
        intro j hj
        rw [show i + 1 + j = i + (j + 1) from by omega]
        exact hstats (j + 1) (by omega)
      rcases ih f (i + 1) (acc ++ recs) (by omega) hnone' hprev' hstats' with ⟨l, hl, hlen2⟩
      refine ⟨l, ?_, ?_⟩
      · simp only [extractVideosLoop, extract_all_videos_info, hr, ht]
        exact hl
      · rw [hlen2]
        simp only [List.length_append, hlen]
        rw [range_sum_shift (fun j => (pages (i + j)).items.length) (k + 1)]
        have hmap : (List.range (k + 1)).map (fun j => (pages (i + 1 + j)).items.length) =
            (List.range (k + 1)).map (fun j => (pages (i + (j + 1))).items.length) := by
          apply List.map_congr_left
          intro a _
          rw [show i + 1 + a = i + (a + 1) from by omega]
        rw [hmap]
        simp only [Nat.add_zero]
        omega

/-- Safety-cap bound: each loop iteration appends at most one page of at
most the page size, and the fuel bounds the iterations. -/
theorem extractVideosLoop_le (fetch : Nat → PageFetch)
    (hb : ∀ i resp, fetch i = .ok resp → resp.items.length ≤ 50) :
    ∀ fuel i acc l, extractVideosLoop fetch fuel i acc = .ok l →
      l.length ≤ acc.length + fuel * 50 := by
  intro fuel
  induction fuel with
  | zero =>
    intro i acc l h
    rw [← Except.ok.inj h]
    omega
  | succ f ih =>
    intro i acc l h
    cases hf : fetch i with
    | raise => simp [extractVideosLoop, extract_all_videos_info, hf] at h
    | ok resp =>
      have hresp := hb i resp hf
      cases hcv : collectVideos resp.items with
      | some recs =>
        have hrl : recs.length ≤ 50 := by
          rw [collectVideos_length resp.items recs hcv]
          exact hresp
        cases htok : resp.nextPageToken with
        | none =>
          simp only [extractVideosLoop, extract_all_videos_info, hf, hcv, htok] at h
          rw [← Except.ok.inj h]
          simp only [List.length_append]
          omega
        | some t =>
          simp only [extractVideosLoop, extract_all_videos_info, hf, hcv, htok] at h
          have := ih (i + 1) (acc ++ recs) l h
          simp only [List.length_append] at this
          omega
      | none =>
        cases htok : resp.nextPageToken with
        | none =>
          simp only [extractVideosLoop, extract_all_videos_info, hf, hcv, htok] at h
          rw [← Except.ok.inj h]
          simp only [List.length_append, List.length_nil]
          omega
        | some t =>
          simp only [extractVideosLoop, extract_all_videos_info, hf, hcv, htok,
            List.append_nil] at h
          have := ih (i + 1) acc l h
          omega

/-- The loop only ever consults the pages its fuel allows. -/
theorem extractVideosLoop_congr (f g : Nat → PageFetch) :
    ∀ fuel i acc, (∀ j, i ≤ j → j < i + fuel → f j = g j) →
      extractVideosLoop f fuel i acc = extractVideosLoop g fuel i acc := by
  intro fuel
  induction fuel with
  | zero => intro i acc _; rfl
  | succ fu ih =>
    intro i acc h
    unfold extractVideosLoop
    rw [h i (Nat.le_refl i) (by omega)]
    cases extract_all_videos_info (g i) with
    | error e => rfl
    | ok pr =>
      obtain ⟨recs, tok⟩ := pr
      cases tok with
      | none => rfl
      | some t =>
        exact ih (i + 1) (acc ++ recs) (fun j hj1 hj2 => h j (by omega) (by omega))

/-- C4: when the cursor first goes absent at page `k+1` (zero-based `k`)
within the safety cap and all statistics lookups up to that page succeed,
the accumulated collection's size is exactly the sum of the per-page item
counts up to and including that page; moreover, for any behaviour of the
listing with pages of at most 50 items, the collection never exceeds
`49 * 50`, and the run never consults pages beyond the 49th. -/
theorem C4_pagination_sum_and_cap (pages : Nat → PageResponse) (k : Nat)
    (hk : k < 49)
    (hnone : (pages k).nextPageToken = none)
    (hprev : ∀ j, j < k → (pages j).nextPageToken ≠ none)
    (hstats : ∀ j, j ≤ k → ∀ it ∈ (pages j).items, it.statsLookup.isSome = true) :
    (∃ l, extract_full_videos (fun i => .ok (pages i)) = .ok l ∧
      l.length = ((List.range (k + 1)).map (fun j => (pages j).items.length)).sum)
    ∧ (∀ fetch : Nat → PageFetch,
        (∀ i resp, fetch i = .ok resp → resp.items.length ≤ 50) →
        ∀ l, extract_full_videos fetch = .ok l → l.length ≤ 49 * 50)
    ∧ (∀ f g : Nat → PageFetch, (∀ i, i < 49 → f i = g i) →
        extract_full_videos f = extract_full_videos g) := by
  refine ⟨?_, ?_, ?_⟩
  · rcases extractVideosLoop_sum pages k 49 0 [] hk (by simpa using hnone)
        (by simpa using hprev) (by simpa using hstats) with ⟨l, hl, hlen⟩
    exact ⟨l, hl, by simpa using hlen⟩
  · intro fetch hb l h
    have := extractVideosLoop_le fetch hb 49 0 [] l h
    simpa using this
  · intro f g h
    exact extractVideosLoop_congr f g 49 0 [] (fun j hj1 hj2 => h j (by omega))

/-- Two concrete pages for the C4 witness: one item then two items, the
second page's cursor absent. -/
def pagesExC4 : Nat → PageResponse := fun i =>
  if i = 0 then
    ⟨[⟨"a", "c", "t", "d", "p", some ⟨none, none, none, none⟩⟩], some "t1"⟩
  else
    ⟨[⟨"b", "c", "t", "d", "p", some ⟨some "1", none, none, none⟩⟩,
      ⟨"c", "c", "t", "d", "p", some ⟨none, some "2", none, none⟩⟩], none⟩

/-- Witness for C4 at the two-page run above (`k = 1`, 1 + 2 items). -/
theorem C4_pagination_sum_and_cap_witness :
    (∃ l, extract_full_videos (fun i => .ok (pagesExC4 i)) = .ok l ∧
      l.length = ((List.range 2).map (fun j => (pagesExC4 j).items.length)).sum)
    ∧ (∀ fetch : Nat → PageFetch,
        (∀ i resp, fetch i = .ok resp → resp.items.length ≤ 50) →
        ∀ l, extract_full_videos fetch = .ok l → l.length ≤ 49 * 50)
    ∧ (∀ f g : Nat → PageFetch, (∀ i, i < 49 → f i = g i) →
        extract_full_videos f = extract_full_videos g) :=
  C4_pagination_sum_and_cap pagesExC4 1 (by decide) (by decide)
    (by decide) (by decide)

/-! ### Claim C3 -/

/-- Digit characters round-trip through `digitVal`. -/
theorem digitVal_dchar (k : Nat) (hk : k < 10) : digitVal (dchar k) = some k := by
  interval_cases k <;> decide

/-- Four rendered digits parse back to the year. -/
theorem parseY4_fourDigits (y : Nat) (hy : y ≤ 9999) (rest : List Char) :
    parseY4 (fourDigitChars y ++ rest) = some (y, rest) := by
  have h1 : y / 1000 < 10 := by omega
  have h2 : y / 100 % 10 < 10 := by omega
  have h3 : y / 10 % 10 < 10 := by omega
  have h4 : y % 10 < 10 := by omega
  have harith : 1000 * (y / 1000) + 100 * (y / 100 % 10) + 10 * (y / 10 % 10) + y % 10 = y := by
    omega
  simp only [fourDigitChars, List.cons_append, List.nil_append, parseY4,
    digitVal_dchar _ h1, digitVal_dchar _ h2, digitVal_dchar _ h3, digitVal_dchar _ h4,
    Option.some_bind, Option.bind_eq_bind, harith]
  rfl

/-- A zero-padded month in `1..12` parses via the two-digit alternative. -/
theorem pField_month (mo : Nat) (h1 : 1 ≤ mo) (h2 : mo ≤ 12) (rest : List Char) :
    pField month2 month1 (twoDigitChars mo ++ rest) = some (mo, rest) := by
  interval_cases mo <;> rfl

/-- A zero-padded day in `1..31` parses via the two-digit alternatives. -/
theorem pField_day (d : Nat) (h1 : 1 ≤ d) (h2 : d ≤ 31) (rest : List Char) :
    pField day2 day1 (twoDigitChars d ++ rest) = some (d, rest) := by
  interval_cases d <;> rfl

/-- A zero-padded hour in `0..23` parses via the two-digit alternatives. -/
theorem pField_hour (h : Nat) (h2 : h ≤ 23) (rest : List Char) :
    pField hour2 hour1 (twoDigitChars h ++ rest) = some (h, rest) := by
  interval_cases h <;> rfl

/-- A zero-padded minute in `0..59` parses via the two-digit alternative. -/
theorem pField_minute (mi : Nat) (h2 : mi ≤ 59) (rest : List Char) :
    pField minute2 minute1 (twoDigitChars mi ++ rest) = some (mi, rest) := by
  interval_cases mi <;> rfl

/-- A zero-padded second in `0..59` parses via the two-digit alternative. -/
theorem pField_second (s : Nat) (h2 : s ≤ 59) (rest : List Char) :
    pField second2 second1 (twoDigitChars s ++ rest) = some (s, rest) := by
  interval_cases s <;> rfl

/-- Literal dash. -/
theorem litChar_dash (rest : List Char) : litChar '-' ('-' :: rest) = some rest := rfl

/-- Literal T. -/
theorem litChar_T (rest : List Char) : litChar 'T' ('T' :: rest) = some rest := rfl

/-- Literal colon. -/
theorem litChar_colon (rest : List Char) : litChar ':' (':' :: rest) = some rest := rfl

/-- Literal Z. -/
theorem litChar_Z (rest : List Char) : litChar 'Z' ('Z' :: rest) = some rest := rfl

/-- Parsing a canonically rendered wire timestamp recovers its fields. -/
theorem strptime_wireT (y mo d h mi s : Nat) (hy : y ≤ 9999)
    (hmo1 : 1 ≤ mo) (hmo2 : mo ≤ 12) (hd1 : 1 ≤ d) (hd2 : d ≤ 31)
    (hh : h ≤ 23) (hmi : mi ≤ 59) (hs : s ≤ 59) :
    strptimeYmdHMSZ (wireT y mo d h mi s) = some (y, mo, d, h, mi, s) := by
  have htl : (wireT y mo d h mi s).toList =
      fourDigitChars y ++ '-' :: (twoDigitChars mo ++ '-' :: (twoDigitChars d
        ++ 'T' :: (twoDigitChars h ++ ':' :: (twoDigitChars mi
        ++ ':' :: (twoDigitChars s ++ ['Z']))))) := by
    simp [wireT, String.toList]
  unfold strptimeYmdHMSZ
  rw [htl]
  simp only [Option.bind_eq_bind, Option.some_bind,
    parseY4_fourDigits y hy, litChar_dash, litChar_T, litChar_colon, litChar_Z,
    pField_month mo hmo1 hmo2, pField_day d hd1 hd2, pField_hour h hh,
    pField_minute mi hmi, pField_second s hs]

/-- The constructor's day bound never exceeds 31. -/
theorem daysInMonth_le_31 (y m : Nat) : daysInMonth y m ≤ 31 := by
  unfold daysInMonth
  split
  · split <;> omega
  · split <;> omega

/-- One bad row aborts the whole-column conversion of its file. -/
theorem processRows_none_of_bad (rows : DataFrame) (r : Row) (hr : r ∈ rows)
    (hbad : convertRow r = none) : processRows rows = none := by
  induction rows with
  | nil => cases hr
  | cons a rest ih =>
    rcases List.mem_cons.1 hr with rfl | hr'
    · simp [processRows, hbad]
    · unfold processRows
      cases hca : convertRow a with
      | none => rfl
      | some a2 => rw [ih hr']; rfl

/-- Counterexample to C3 as stated.  First input: `"2023-1-2T3:4:5Z"` is
not of the form `YYYY-MM-DDTHH:MM:SSZ` (its fields are not zero-padded),
yet `convert_datetime` does *not* raise - CPython's `_strptime` regex
accepts one-digit fields - so the error is not raised "exactly when the
input does not match that pattern".  Second input: `"2023-02-30T00:00:00Z"`
*is* of that syntactic form, yet the conversion raises (`datetime` rejects
February 30), so matching strings are not all converted either. -/
theorem C3_counterexample_pattern_mismatch :
    (specPatternShape "2023-1-2T3:4:5Z" = false
      ∧ convert_datetime "2023-1-2T3:4:5Z" = some "2023-01-02 03:04:05")
    ∧ (specPatternShape "2023-02-30T00:00:00Z" = true
      ∧ convert_datetime "2023-02-30T00:00:00Z" = none) := by
  decide

/-- C3 amended: `convert_datetime` maps every calendar-valid datetime
rendered in the strict `YYYY-MM-DDTHH:MM:SSZ` form (year 1000-9999) to the
same instant rendered as `YYYY-MM-DD HH:MM:SS`; in particular
`"2023-10-27T00:00:00Z"` yields `"2023-10-27 00:00:00"`.  It raises a
format error on strings the underlying parser rejects (e.g.
`"2023/10/27 00:00:00"`) - but not *exactly* on the non-matching strings:
see the counterexample.  A file whose `publishedAt` column triggers the
error is skipped and the other files of the batch are still processed. -/
theorem C3_amended_convert_datetime (y mo d h mi s : Nat)
    (hy1 : 1000 ≤ y) (hy2 : y ≤ 9999) (hmo1 : 1 ≤ mo) (hmo2 : mo ≤ 12)
    (hd1 : 1 ≤ d) (hdm : d ≤ daysInMonth y mo)
    (hh : h ≤ 23) (hmi : mi ≤ 59) (hs : s ≤ 59) :
    convert_datetime (wireT y mo d h mi s) = some (strftimeSpace y mo d h mi s)
    ∧ convert_datetime "2023-10-27T00:00:00Z" = some "2023-10-27 00:00:00"
    ∧ convert_datetime "2023/10/27 00:00:00" = none
    ∧ (∀ bronze : List FileEntry, ∀ now : String, ∀ f ∈ bronze,
        (bronze.map FileEntry.name).Nodup → processOne now f = none →
        f.name ∉ (process_files bronze now).map Prod.fst)
    ∧ (∀ bronze : List FileEntry, ∀ now : String, ∀ g ∈ bronze,
        (bronze.map FileEntry.name).Nodup →
        containsSub g.name "2023-10-27" = true →
        ∀ kv, processOne now g = some kv → kv ∈ process_files bronze now)
    ∧ (∀ name rows now, ∀ r ∈ rows, ∀ v, getCol r "publishedAt" = some v →
        convert_datetime v = none →
        processOne now (FileEntry.mk name (some rows)) = none) := by
  refine ⟨?_, by decide, by decide, ?_, ?_, ?_⟩
  · unfold convert_datetime
    rw [strptime_wireT y mo d h mi s hy2 hmo1 hmo2 hd1
      (Nat.le_trans hdm (daysInMonth_le_31 y mo)) hh hmi hs]
    show (if 1 ≤ y ∧ 1 ≤ d ∧ d ≤ daysInMonth y mo ∧ s ≤ 59 then
      some (strftimeSpace y mo d h mi s) else none) = some (strftimeSpace y mo d h mi s)
    rw [if_pos ⟨by omega, hd1, hdm, hs⟩]
  · intro bronze now f hf hnd hnone hmem
    rw [process_files_eq bronze now hnd] at hmem
    rcases List.mem_map.1 hmem with ⟨p, hp, hpname⟩
    rcases List.mem_filterMap.1 hp with ⟨g, hgL, hgp⟩
    have hgname : g.name = f.name := by rw [← hpname, processOne_key hgp]
    have hgs : g ∈ bronze := (List.mem_filter.1 hgL).1
    have : g = f := nodup_map_inj hnd hgs hf hgname
    rw [this, hnone] at hgp
    cases hgp
  · intro bronze now g hg hnd hcont kv hkv
    rw [process_files_eq bronze now hnd]
    exact List.mem_filterMap.2 ⟨g, List.mem_filter.2 ⟨hg, hcont⟩, hkv⟩
  · intro name rows now r hr v hv hconv
    unfold processOne
    simp only [Option.some_bind]
    rw [processRows_none_of_bad rows r hr (by simp [convertRow, hv, hconv])]
    rfl

/-- Witness for the amended C3 at the leap-day instant
`2024-02-29T23:59:58Z`. -/
theorem C3_amended_convert_datetime_witness :
    convert_datetime (wireT 2024 2 29 23 59 58) = some (strftimeSpace 2024 2 29 23 59 58)
    ∧ convert_datetime "2023-10-27T00:00:00Z" = some "2023-10-27 00:00:00"
    ∧ convert_datetime "2023/10/27 00:00:00" = none
    ∧ (∀ bronze : List FileEntry, ∀ now : String, ∀ f ∈ bronze,
        (bronze.map FileEntry.name).Nodup → processOne now f = none →
        f.name ∉ (process_files bronze now).map Prod.fst)
    ∧ (∀ bronze : List FileEntry, ∀ now : String, ∀ g ∈ bronze,
        (bronze.map FileEntry.name).Nodup →
        containsSub g.name "2023-10-27" = true →
        ∀ kv, processOne now g = some kv → kv ∈ process_files bronze now)
    ∧ (∀ name rows now, ∀ r ∈ rows, ∀ v, getCol r "publishedAt" = some v →
        convert_datetime v = none →
        processOne now (FileEntry.mk name (some rows)) = none) :=
  C3_amended_convert_datetime 2024 2 29 23 59 58 (by decide) (by decide) (by decide)
    (by decide) (by decide) (by decide) (by decide) (by decide) (by decide)

end YTP
